import Mathlib

/-!
Verification development for the BB_TextureCombine UDIM texture repacker.

The Python source (src/__init__.py) is shallowly embedded below:
UV coordinates are exact rationals, Python `int()` is truncation toward
zero, `math.floor` is `Int.floor`, Python dicts that are only inserted
into are association lists in insertion order, and the Blender node
graph is plain inductive data (nodes referenced by list index).  Image
decode I/O is abstracted into explicit load-outcome inputs; PIL pixel
buffers are records of their mode, fill colour and the sequence of
resample-and-paste operations applied to them.
-/

namespace BBTex

/-- Python `int(q)` on a rational: truncation toward zero. -/
def pyInt (q : ℚ) : ℤ := if 0 ≤ q then ⌊q⌋ else -⌊-q⌋

/-- The boundary adjustment `u if u != int(u) or u == 0 else u - 0.001`
from `get_udim_tile_from_uv` (src/__init__.py lines 27-28). -/
def adjustUV (q : ℚ) : ℚ :=
  if q ≠ (pyInt q : ℚ) ∨ q = 0 then q else q - 1/1000

/-- `get_udim_tile_from_uv` (src/__init__.py lines 20-33):
`math.floor` of the boundary-adjusted coordinates, tile = 1001 + 10*v + u. -/
def get_udim_tile_from_uv (u v : ℚ) : ℤ :=
  1001 + (⌊adjustUV v⌋ * 10) + ⌊adjustUV u⌋

/-- The `int(uv.x if uv.x != int(uv.x) or uv.x == 0 else uv.x - 0.001)`
idiom used in the repack loop, the lossless tile count and the
compositor's target-tile detection (lines 678-680, 876-878, 1074-1076):
truncation (not floor) of the boundary-adjusted coordinate. -/
def tileCoordTrunc (q : ℚ) : ℤ := pyInt (adjustUV q)

/-- Tile number as computed by the trunc-based detection loops. -/
def tileNumTrunc (u v : ℚ) : ℤ :=
  1001 + tileCoordTrunc v * 10 + tileCoordTrunc u

/-! ### Grid layout arithmetic (planner and compositor share these) -/

/-- `math.ceil(a / b)` on natural inputs (exact rational division). -/
def ceilDiv (a b : ℕ) : ℕ := (a + b - 1) / b

/-- Linear search for the least `c ≥ c₀` with `n ≤ c*c`. -/
def ceilSqrtAux (n : ℕ) : ℕ → ℕ → ℕ
  | 0, c => c
  | fuel+1, c => if n ≤ c * c then c else ceilSqrtAux n fuel (c + 1)

/-- `math.ceil(math.sqrt n)`: the least `c` with `n ≤ c*c`. -/
def ceilSqrt (n : ℕ) : ℕ := ceilSqrtAux n n 0

/-- Grid parameters computed by `repack_uvs_udim_based` (lines 622-636)
from the source-tile count `S` and the target-tile count `T`; the
compositor recomputes the same formulas at lines 1084-1102. -/
structure GridParams where
  tilesPerTarget : ℕ
  gridCols : ℕ
  gridRows : ℕ
  cellSize : ℚ
  targetTilesPerRow : ℕ
  deriving Repr, DecidableEq

def gridLayout (S T : ℕ) : GridParams :=
  let tpt := ceilDiv S T
  let gc := ceilSqrt tpt
  { tilesPerTarget := tpt
    gridCols := gc
    gridRows := ceilDiv tpt gc
    cellSize := 1 / (gc : ℚ)
    targetTilesPerRow := ceilSqrt T }

/-- Target UDIM number of slot index `slot` in a row-major layout `R`
tiles wide (lines 647-649 and 1119-1121). -/
def targetTileNum (R slot : ℕ) : ℤ :=
  1001 + ((slot / R : ℕ) : ℤ) * 10 + ((slot % R : ℕ) : ℤ)

/-- Per-source-rank placement: target tile and cell, as derived by the
planner loop (lines 641-657). -/
structure Placement where
  targetSlot : ℕ
  targetU : ℕ
  targetV : ℕ
  targetTile : ℤ
  cellCol : ℕ
  cellRow : ℕ
  deriving Repr, DecidableEq

def placementOfRank (g : GridParams) (rank : ℕ) : Placement :=
  let slot := rank / g.tilesPerTarget
  let cell := rank % g.tilesPerTarget
  { targetSlot := slot
    targetU := slot % g.targetTilesPerRow
    targetV := slot / g.targetTilesPerRow
    targetTile := targetTileNum g.targetTilesPerRow slot
    cellCol := cell % g.gridCols
    cellRow := cell / g.gridCols }

/-! ### Scene data model -/

/-- A Blender image datablock: stable name plus pixel dimensions. -/
structure Image where
  iname : String
  width : ℕ
  height : ℕ
  deriving Repr, DecidableEq

/-- An input socket of a shading node: socket name plus the indices of
the nodes its incoming links come from (`socket.links[i].from_node`).
`is_linked` is `links ≠ []`. -/
structure InSocket where
  sockName : String
  links : List ℕ
  deriving Repr, DecidableEq

/-- A shading node: type tag, optional image datablock, input sockets. -/
structure GNode where
  ntype : String
  image : Option Image
  inputs : List InSocket
  deriving Repr, DecidableEq

/-- A material: `use_nodes` flag plus its node tree (nodes by index). -/
structure Material where
  useNodes : Bool
  nodes : List GNode
  deriving Repr, DecidableEq

/-- A scene object: type tag, UV-layer flags, per-loop UV coordinates,
and material slots (a slot may hold no material). -/
structure SObj where
  objType : String
  hasUVLayers : Bool
  hasActiveUV : Bool
  loops : List (ℚ × ℚ)
  materials : List (Option Material)
  deriving Repr, DecidableEq

/-! ### Primary-tile assignment (`get_object_primary_udim`, lines 36-71) -/

/-- UV bounding box (minU, minV, maxU, maxV) folded over all loops,
seeded from the first loop exactly as lines 52-61 do. -/
def uvBBox (first : ℚ × ℚ) (loops : List (ℚ × ℚ)) : ℚ × ℚ × ℚ × ℚ :=
  loops.foldl
    (fun acc p => (min acc.1 p.1, min acc.2.1 p.2, max acc.2.2.1 p.1, max acc.2.2.2 p.2))
    (first.1, first.2, first.1, first.2)

/-- Center of the UV bounding box (lines 63-65); `none` when the object
has no loops. -/
def uvCenter (o : SObj) : Option (ℚ × ℚ) :=
  match o.loops with
  | [] => none
  | p :: _ =>
      let bb := uvBBox p o.loops
      some ((bb.1 + bb.2.2.1) / 2, (bb.2.1 + bb.2.2.2) / 2)

/-- `get_object_primary_udim` (lines 36-71).  Note: the tile is
`1001 + floor(center_v)*10 + floor(center_u)` with a plain `math.floor`,
without the boundary adjustment of `get_udim_tile_from_uv`. -/
def get_object_primary_udim (o : SObj) : Option ℤ :=
  if o.objType ≠ "MESH" ∨ o.hasUVLayers = false then none
  else if o.hasActiveUV = false then none
  else
    match uvCenter o with
    | none => none
    | some c => some (1001 + ⌊c.2⌋ * 10 + ⌊c.1⌋)

/-! ### Small helpers: sorting, set-insertion, dict update, strings -/

def insertAsc (x : ℤ) : List ℤ → List ℤ
  | [] => [x]
  | y :: ys => if x ≤ y then x :: y :: ys else y :: insertAsc x ys

/-- `sorted(...)` on a list of tile numbers. -/
def sortAsc (l : List ℤ) : List ℤ := l.foldr insertAsc []

/-- Set insertion preserving first-seen order. -/
def addTile (l : List ℤ) (t : ℤ) : List ℤ := if t ∈ l then l else l ++ [t]

/-- Python dict assignment `d[k] = v`: replace in place if present,
else append (insertion order preserved). -/
def dictSet {K V : Type} [DecidableEq K] (d : List (K × V)) (k : K) (v : V) :
    List (K × V) :=
  if (d.lookup k).isSome then d.map (fun p => if p.1 = k then (k, v) else p)
  else d ++ [(k, v)]

def lowerStr (s : String) : String := String.mk (s.toList.map Char.toLower)

def stripChars (cs : List Char) (s : String) : String :=
  String.mk (s.toList.filter (fun c => c ∉ cs))

/-- `name.replace('.', '_')` (single-character replacement). -/
def dotToUnderscore (s : String) : String :=
  String.mk (s.toList.map (fun c => if c = '.' then '_' else c))

def isPrefixCharList : List Char → List Char → Bool
  | [], _ => true
  | _ :: _, [] => false
  | a :: as, b :: bs => a = b && isPrefixCharList as bs

def subListCheck (needle : List Char) : List Char → Bool
  | [] => needle.isEmpty
  | h :: t => isPrefixCharList needle (h :: t) || subListCheck needle t

/-- Python `needle in hay` substring test. -/
def containsSub (hay needle : String) : Bool := subListCheck needle.toList hay.toList

/-! ### ChannelResolver: structural pass and recursive per-socket lookup -/

/-- `get_principled_bsdf_textures` (lines 243-279): ONE hop from each
linked input of the first Principled BSDF node (plus one extra hop
through a normal-map adapter on the "Normal" input); records
(socket name, image) into a dict. -/
def get_principled_bsdf_textures (mat : Material) : List (String × Image) :=
  if mat.useNodes = false then []
  else
    match mat.nodes.find? (fun n => n.ntype = "BSDF_PRINCIPLED") with
    | none => []
    | some principled =>
        principled.inputs.foldl
          (fun acc s =>
            match s.links with
            | [] => acc
            | fid :: _ =>
                match mat.nodes[fid]? with
                | none => acc
                | some linked =>
                    let linked2 :=
                      if s.sockName = "Normal" ∧ linked.ntype = "NORMAL_MAP" then
                        match linked.inputs.find? (fun i => i.sockName = "Color") with
                        | none => linked
                        | some ci =>
                            match ci.links with
                            | [] => linked
                            | cf :: _ => (mat.nodes[cf]?).getD linked
                      else linked
                    if linked2.ntype = "TEX_IMAGE" then
                      match linked2.image with
                      | some img => dictSet acc s.sockName img
                      | none => acc
                    else acc)
          []

mutual

/-- `find_connected_texture_recursive` (lines 395-421): follow the first
link of a socket backward; a node already in `visited` is never revisited;
an image node terminates the search; otherwise recurse through every
input of the intermediate node, threading the (mutated) visited set.
The fuel argument only bounds the cycle-protected recursion depth, which
never exceeds the node count plus one (each nested call adds a distinct
node index to `visited` first). -/
def fctr (g : List GNode) : ℕ → InSocket → List ℕ → Option Image × List ℕ
  | 0, _, vis => (none, vis)
  | fuel+1, s, vis =>
      match s.links with
      | [] => (none, vis)
      | fid :: _ =>
          if fid ∈ vis then (none, vis)
          else
            match g[fid]? with
            | none => (none, vis ++ [fid])
            | some nd =>
                if nd.ntype = "TEX_IMAGE" ∧ nd.image.isSome then (nd.image, vis ++ [fid])
                else fctrInputs g fuel nd.inputs (vis ++ [fid])

/-- The `for input_socket in from_node.inputs` loop of lines 415-419. -/
def fctrInputs (g : List GNode) : ℕ → List InSocket → List ℕ → Option Image × List ℕ
  | _, [], vis => (none, vis)
  | fuel, s :: rest, vis =>
      match fctr g fuel s vis with
      | (some img, vis2) => (some img, vis2)
      | (none, vis2) => fctrInputs g fuel rest vis2

end

/-- Entry point with fresh visited set and sufficient fuel. -/
def findConnectedTexture (nodes : List GNode) (s : InSocket) : Option Image :=
  (fctr nodes (nodes.length + 1) s []).1

/-- The standard Principled BSDF socket names (lines 433-436). -/
def standardSockets : List String :=
  ["Base Color", "Metallic", "Roughness", "Normal", "Specular",
   "Emission", "Emission Color", "Alpha", "Transmission", "Subsurface Color"]

/-- The three custom name-matching strategies of lines 483-506. -/
def customNodeMatch (sock : String) (n : GNode) : Bool :=
  n.ntype = "TEX_IMAGE" &&
  (match n.image with
   | none => false
   | some img =>
       let s1 := sock = dotToUnderscore img.iname
       let sockLower := lowerStr sock
       let imgLower := lowerStr img.iname
       let s2 := containsSub (stripChars [' ', '_'] imgLower) (stripChars [' '] sockLower)
       let s3 := (containsSub sockLower "ambient" && containsSub imgLower "ao")
         || (containsSub sockLower "base color"
             && (containsSub imgLower "basecolor" || containsSub imgLower "diffuse"))
       s1 || s2 || s3)

/-- Whether a node's "Color" input is linked (line 473). -/
def colorInputLinked (n : GNode) : Bool :=
  match n.inputs.find? (fun i => i.sockName = "Color") with
  | some ci => ci.links ≠ []
  | none => false

/-- The per-object texture resolution of `detect_source_udims_for_socket`
(lines 453-506): standard sockets go through the Principled BSDF input
and the recursive lookup (with the normal-map special case); custom
socket names scan all nodes with the name-matching strategies. -/
def objTextureForSocket (sock : String) (o : SObj) : Option Image :=
  match o.materials with
  | (some mat) :: _ =>
      if mat.useNodes = false then none
      else if sock ∈ standardSockets then
        match mat.nodes.find? (fun n => n.ntype = "BSDF_PRINCIPLED") with
        | none => none
        | some principled =>
            match principled.inputs.find? (fun i => i.sockName = sock) with
            | none => none
            | some socket =>
                match socket.links with
                | fid :: _ =>
                    if sock = "Normal" then
                      match mat.nodes[fid]? with
                      | none => findConnectedTexture mat.nodes socket
                      | some fromNode =>
                          if fromNode.ntype = "NORMAL_MAP" ∧ colorInputLinked fromNode then
                            match fromNode.inputs.find? (fun i => i.sockName = "Color") with
                            | some ci => findConnectedTexture mat.nodes ci
                            | none => findConnectedTexture mat.nodes socket
                          else findConnectedTexture mat.nodes socket
                    else findConnectedTexture mat.nodes socket
                | [] => findConnectedTexture mat.nodes socket
      else
        (mat.nodes.find? (fun n => customNodeMatch sock n)).bind (fun n => n.image)
  | _ => none

/-- Texture used by `detect_source_udims` (lines 562-570): first image
node of the first material slot, regardless of socket. -/
def firstAnyTexture (o : SObj) : Option Image :=
  match o.materials with
  | (some mat) :: _ =>
      if mat.useNodes then
        (mat.nodes.find? (fun n => n.ntype = "TEX_IMAGE" ∧ n.image.isSome)).bind
          (fun n => n.image)
      else none
  | _ => none

/-! ### SourceSurvey: per-tile accumulation (lines 424-533 and 536-597) -/

structure DetectState where
  sourceTiles : List ℤ
  tileObjects : List (ℤ × List SObj)
  tileTexture : List (ℤ × Image)
  deriving Repr

def addTileObject (l : List (ℤ × List SObj)) (t : ℤ) (o : SObj) :
    List (ℤ × List SObj) :=
  match l.lookup t with
  | some os => dictSet l t (os ++ [o])
  | none => l ++ [(t, [o])]

/-- One iteration of the survey loop, parametrised by how the object's
texture is resolved.  `if not primary_tile: continue` also skips a tile
number equal to 0 (Python falsiness of the int). -/
def detectStep (texOf : SObj → Option Image) (st : DetectState) (o : SObj) :
    DetectState :=
  if o.objType ≠ "MESH" ∨ o.hasUVLayers = false then st
  else if o.hasActiveUV = false then st
  else
    match get_object_primary_udim o with
    | none => st
    | some tile =>
        if tile = 0 then st
        else
          let tex := texOf o
          { sourceTiles := addTile st.sourceTiles tile
            tileObjects := addTileObject st.tileObjects tile o
            tileTexture :=
              match tex with
              | some timg =>
                  if (st.tileTexture.lookup tile).isSome then st.tileTexture
                  else st.tileTexture ++ [(tile, timg)]
              | none => st.tileTexture }

/-- `detect_source_udims_for_socket` (lines 424-533). -/
def detect_source_udims_for_socket (objects : List SObj) (sock : String) :
    List ℤ × List (ℤ × List SObj) × List (ℤ × Image) :=
  let st := objects.foldl (detectStep (objTextureForSocket sock)) ⟨[], [], []⟩
  (sortAsc st.sourceTiles, st.tileObjects, st.tileTexture)

/-- `detect_source_udims` (lines 536-597). -/
def detect_source_udims (objects : List SObj) :
    List ℤ × List (ℤ × List SObj) × List (ℤ × Image) :=
  let st := objects.foldl (detectStep firstAnyTexture) ⟨[], [], []⟩
  (sortAsc st.sourceTiles, st.tileObjects, st.tileTexture)

/-! ### RepackPlanner: `repack_uvs_udim_based` (lines 600-698) -/

/-- The in-place UV rewrite of lines 674-689 for one loop of an object
assigned to source tile `srcTile` at rank `idx`.  Coordinates whose
trunc-adjusted tile is not `srcTile` are left untouched. -/
def transformLoop (g : GridParams) (pl : Placement) (srcTile : ℤ) (p : ℚ × ℚ) :
    ℚ × ℚ :=
  if tileNumTrunc p.1 p.2 = srcTile then
    let su : ℤ := (srcTile - 1001) % 10
    let sv : ℤ := (srcTile - 1001) / 10
    let gx : ℚ := (pl.targetU : ℚ) + (pl.cellCol : ℚ) * g.cellSize
    let gy : ℚ := (pl.targetV : ℚ) + (pl.cellRow : ℚ) * g.cellSize
    (gx + (p.1 - (su : ℚ)) * g.cellSize, gy + (p.2 - (sv : ℚ)) * g.cellSize)
  else p

def repackObject (g : GridParams) (pl : Placement) (srcTile : ℤ) (o : SObj) : SObj :=
  { o with loops := o.loops.map (transformLoop g pl srcTile) }

/-- `repack_uvs_udim_based`.  Returns (placed objects with rewritten UVs
in tile-iteration order, sorted source tiles, tile-to-texture map).
Each surviving object sits in exactly one tile's member list, so the
functional per-tile rewrite coincides with the Python in-place loop. -/
def repack_uvs_udim_based (objects : List SObj) (T : ℕ) :
    List SObj × List ℤ × List (ℤ × Image) :=
  let det := detect_source_udims objects
  let sourceTiles := det.1
  if sourceTiles = [] then ([], [], [])
  else
    let g := gridLayout sourceTiles.length T
    let placed := sourceTiles.enum.foldl
      (fun acc ip =>
        let pl := placementOfRank g ip.1
        match det.2.1.lookup ip.2 with
        | none => acc
        | some os => acc ++ os.map (repackObject g pl ip.2))
      []
    (placed, sourceTiles, det.2.2)

/-! ### ResolutionPolicy (lines 315-331 and 845-906) -/

/-- `get_object_texture_resolution` (lines 315-331): first image node
with positive dimensions across the object's material slots; default
1024x1024. -/
def get_object_texture_resolution (o : SObj) : ℕ × ℕ :=
  let scan : List (Option Material) → Option (ℕ × ℕ) := fun slots =>
    slots.findSome? (fun slot =>
      match slot with
      | none => none
      | some m =>
          if m.useNodes = false then none
          else
            m.nodes.findSome? (fun n =>
              if n.ntype = "TEX_IMAGE" then
                n.image.bind (fun img =>
                  if 0 < img.width ∧ 0 < img.height then some (img.width, img.height)
                  else none)
              else none))
  if o.materials = [] then (1024, 1024)
  else ((scan o.materials).getD (1024, 1024))

/-- Discovery phase of `calculate_lossless_resolution` (lines 849-858):
the first MESH object with UV layers supplies max(width, height). -/
def discoverSourceResolution (objects : List SObj) : Option ℕ :=
  objects.findSome? (fun o =>
    if o.objType ≠ "MESH" ∨ o.hasUVLayers = false then none
    else
      let wh := get_object_texture_resolution o
      if 0 < wh.1 ∧ 0 < wh.2 then some (max wh.1 wh.2) else none)

/-- Source-tile census of lines 865-879 (trunc-adjusted tile of every
loop of every MESH object with an active UV layer). -/
def losslessSourceTiles (objects : List SObj) : List ℤ :=
  objects.foldl
    (fun acc o =>
      if o.objType ≠ "MESH" ∨ o.hasUVLayers = false then acc
      else if o.hasActiveUV = false then acc
      else o.loops.foldl (fun acc2 p => addTile acc2 (tileNumTrunc p.1 p.2)) acc)
    []

/-- Least `k ≥ k₀` with `n ≤ 2^k`, by linear search. -/
def ceilLog2Aux (n : ℕ) : ℕ → ℕ → ℕ
  | 0, k => k
  | fuel+1, k => if n ≤ 2 ^ k then k else ceilLog2Aux n fuel (k + 1)

/-- `math.ceil(math.log2 n)` for `n ≥ 1`: the least `k` with `n ≤ 2^k`. -/
def ceilLog2 (n : ℕ) : ℕ := ceilLog2Aux n n 0

/-- `calculate_lossless_resolution` (lines 845-906). -/
def calculate_lossless_resolution (objects : List SObj) (T : ℕ) : ℕ :=
  match discoverSourceResolution objects with
  | none => 2048
  | some m =>
      let s0 := (losslessSourceTiles objects).length
      let S := if s0 = 0 then 1 else s0
      let gc := (gridLayout S T).gridCols
      let p2 := 2 ^ ceilLog2 (m * gc)
      max 512 (min 8192 p2)

/-! ### Compositor: `composite_textures_with_pil` (lines 909-1163)

Image decode I/O is abstracted into a per-tile load outcome (`none`
covers the unmapped-tile, missing-file, no-data and decode-error
branches of lines 946-1054, all of which `continue` without an entry);
pixel buffers record their PIL mode, their fill colour and the pastes
applied to them.  The by-image-name decode cache (lines 940-1017) only
avoids redundant decodes and applies the same RGB conversion, so it
does not change the resulting tile-to-image mapping. -/

inductive PMode where
  | rgb : PMode
  | rgba : PMode
  | other : String → PMode
  deriving Repr, DecidableEq

/-- A decoded source image before mode conversion. -/
structure SrcImage where
  sname : String
  mode : PMode
  deriving Repr, DecidableEq

/-- A PIL image as the compositor holds it: its mode after the RGB
conversion, its origin, and whether it was flattened over opaque white. -/
structure PILImage where
  mode : PMode
  origin : SrcImage
  flattenedOverWhite : Bool
  deriving Repr, DecidableEq

/-- Lines 1041-1047 (and identically 986-992, 1010-1015): RGBA sources
are pasted over an opaque white RGB background using their alpha as
mask; any other non-RGB mode is converted to RGB. -/
def pilToRGB (img : SrcImage) : PILImage :=
  if img.mode = PMode.rgba then ⟨PMode.rgb, img, true⟩
  else if img.mode ≠ PMode.rgb then ⟨PMode.rgb, img, false⟩
  else ⟨img.mode, img, false⟩

/-- One recorded `paste(resize(...), (px, py))` call (lines 1137-1141). -/
structure Paste where
  srcTile : ℤ
  img : PILImage
  sizePx : ℤ
  px : ℤ
  py : ℤ
  cellCol : ℕ
  cellRow : ℕ
  deriving Repr, DecidableEq

/-- A target tile buffer: `Image.new('RGB', (R, R), (128, 128, 128))`
plus the pastes applied to it. -/
structure TargetImage where
  mode : PMode
  fill : ℕ × ℕ × ℕ
  res : ℕ
  pastes : List Paste
  deriving Repr, DecidableEq

def blankTarget (r : ℕ) : TargetImage := ⟨PMode.rgb, (128, 128, 128), r, []⟩

/-- Target-tile detection from the (already rewritten) UVs,
lines 1067-1079. -/
def detectTargetTiles (objects : List SObj) : List ℤ :=
  sortAsc (objects.foldl
    (fun acc o =>
      if o.objType ≠ "MESH" ∨ o.hasUVLayers = false then acc
      else o.loops.foldl (fun acc2 p => addTile acc2 (tileNumTrunc p.1 p.2)) acc)
    [])

/-- Append a paste to the buffer of tile `t` if that buffer exists
(lines 1140-1144; a missing target tile is skipped with a warning). -/
def pasteInto (l : List (ℤ × TargetImage)) (t : ℤ) (p : Paste) :
    List (ℤ × TargetImage) :=
  match l.lookup t with
  | none => l
  | some img => dictSet l t { img with pastes := img.pastes ++ [p] }

/-- `composite_textures_with_pil`, given the per-tile load outcomes. -/
def composite_textures_with_pil (objects : List SObj) (resolution : ℕ)
    (sourceTiles : List ℤ) (loadOutcome : ℤ → Option SrcImage) :
    Option (List (ℤ × TargetImage)) :=
  let loaded : List (ℤ × PILImage) :=
    sourceTiles.foldl
      (fun acc t =>
        match loadOutcome t with
        | some si => acc ++ [(t, pilToRGB si)]
        | none => acc)
      []
  if loaded = [] then none
  else
    let tgt := detectTargetTiles objects
    let g := gridLayout sourceTiles.length tgt.length
    let base : List (ℤ × TargetImage) := tgt.map (fun t => (t, blankTarget resolution))
    some (sourceTiles.enum.foldl
      (fun acc ip =>
        match loaded.lookup ip.2 with
        | none => acc
        | some pimg =>
            let pl := placementOfRank g ip.1
            let cellX : ℚ := (pl.cellCol : ℚ) * g.cellSize
            let cellYuv : ℚ := (pl.cellRow : ℚ) * g.cellSize
            let cellYpil : ℚ := 1 - cellYuv - g.cellSize
            let px := pyInt (cellX * (resolution : ℚ))
            let py := pyInt (cellYpil * (resolution : ℚ))
            let csPx := pyInt (g.cellSize * (resolution : ℚ))
            pasteInto acc pl.targetTile
              ⟨ip.2, pimg, csPx, px, py, pl.cellCol, pl.cellRow⟩)
      base)

/-! ### The per-channel bake entry point (lines 1244-1275, 1689-1704) -/

inductive BakeOutcome where
  | composited : List (ℤ × TargetImage) → BakeOutcome
  | blenderBake : BakeOutcome
  deriving Repr

structure BakeInput where
  objects : List SObj
  resolution : ℕ
  sourceTiles : List ℤ
  tileToTexture : List (ℤ × Image)
  loadOutcome : ℤ → Option SrcImage

/-- `bake_combined_texture` up to its PIL/Blender-bake decision
(lines 1252-1275): PIL compositing is attempted only when the socket
has pre-detected textures; a `None` (or empty) result falls back to the
Blender baking path. -/
def bake_combined_texture (inp : BakeInput) : BakeOutcome :=
  if inp.tileToTexture = [] then BakeOutcome.blenderBake
  else
    match composite_textures_with_pil inp.objects inp.resolution inp.sourceTiles
      inp.loadOutcome with
    | some tiles =>
        if tiles = [] then BakeOutcome.blenderBake else BakeOutcome.composited tiles
    | none => BakeOutcome.blenderBake

/-- The per-socket loop of the operator (lines 1689-1704): each channel
is baked independently from its own pre-detected inputs. -/
def bakeAllChannels (channels : List String) (inp : String → BakeInput) :
    List (String × BakeOutcome) :=
  channels.map (fun c => (c, bake_combined_texture (inp c)))

/-! ## Arithmetic bridge lemmas -/

lemma pyInt_eq_floor {q : ℚ} (h : 0 ≤ q) : pyInt q = ⌊q⌋ := by
  simp [pyInt, h]

lemma pyInt_natCast (k : ℕ) : pyInt (k : ℚ) = (k : ℤ) := by
  rw [pyInt_eq_floor (by positivity)]
  exact Int.floor_natCast k

lemma adjustUV_of_ne {q : ℚ} (h : q ≠ (pyInt q : ℚ)) : adjustUV q = q := by
  simp [adjustUV, h]

lemma adjustUV_nat_pos (k : ℕ) (hk : 1 ≤ k) : adjustUV (k : ℚ) = (k : ℚ) - 1/1000 := by
  have h1 : ((k : ℚ)) = ((pyInt (k : ℚ) : ℤ) : ℚ) := by
    rw [pyInt_natCast]
    push_cast
    ring
  have h2 : (k : ℚ) ≠ 0 := by
    have : (1 : ℚ) ≤ (k : ℚ) := by exact_mod_cast hk
    linarith
  simp only [adjustUV]
  rw [if_neg]
  push_neg
  exact ⟨h1, h2⟩

lemma floor_cast_sub_small (z : ℤ) {ε : ℚ} (h1 : 0 < ε) (h2 : ε ≤ 1) :
    ⌊(z : ℚ) - ε⌋ = z - 1 := by
  rw [Int.floor_eq_iff]
  constructor
  · push_cast; linarith
  · push_cast; linarith

lemma ceilDiv_le_iff {b : ℕ} (hb : 0 < b) (a c : ℕ) :
    ceilDiv a b ≤ c ↔ a ≤ c * b := by
  unfold ceilDiv
  rw [Nat.div_le_iff_le_mul_add_pred hb, Nat.mul_comm c b]
  generalize b * c = x
  omega

lemma le_ceilDiv_mul {b : ℕ} (hb : 0 < b) (a : ℕ) : a ≤ ceilDiv a b * b :=
  (ceilDiv_le_iff hb a (ceilDiv a b)).mp le_rfl

lemma ceilDiv_pos {b : ℕ} (hb : 0 < b) {a : ℕ} (ha : 0 < a) : 0 < ceilDiv a b := by
  by_contra h
  push_neg at h
  have := (ceilDiv_le_iff hb a 0).mp (by omega)
  omega

/-- `ceilDiv` agrees with the exact rational ceiling (the claim's
`ceil(S / T)`). -/
lemma ceilDiv_eq_ceil {b : ℕ} (hb : 0 < b) (a : ℕ) :
    ((ceilDiv a b : ℕ) : ℤ) = ⌈(a : ℚ) / (b : ℚ)⌉ := by
  have hbq : (0 : ℚ) < (b : ℚ) := by exact_mod_cast hb
  symm
  rw [Int.ceil_eq_iff]
  push_cast
  constructor
  · rcases Nat.eq_zero_or_pos a with ha | ha
    · subst ha
      have h0 : ceilDiv 0 b = 0 := by
        have := (ceilDiv_le_iff hb 0 0).mpr (by omega)
        omega
      rw [h0]
      norm_num
    · have hq1 : 1 ≤ ceilDiv a b := ceilDiv_pos hb ha
      have hlt : (ceilDiv a b - 1) * b < a := by
        by_contra hc
        push_neg at hc
        have := (ceilDiv_le_iff hb a (ceilDiv a b - 1)).mpr hc
        omega
      rw [lt_div_iff₀ hbq]
      have hcast : (((ceilDiv a b - 1 : ℕ) : ℚ)) * (b : ℚ) < (a : ℚ) := by
        exact_mod_cast hlt
      have heq : (((ceilDiv a b - 1 : ℕ) : ℚ)) = ((ceilDiv a b : ℕ) : ℚ) - 1 := by
        push_cast [hq1]
        ring
      rw [heq] at hcast
      linarith
  · rw [div_le_iff₀ hbq]
    exact_mod_cast le_ceilDiv_mul hb a

lemma ceilSqrtAux_spec (n : ℕ) :
    ∀ fuel c, n ≤ (c + fuel) * (c + fuel) → (∀ d, d < c → d * d < n) →
      n ≤ ceilSqrtAux n fuel c * ceilSqrtAux n fuel c
      ∧ ∀ d, d < ceilSqrtAux n fuel c → d * d < n := by
  intro fuel
  induction fuel with
  | zero =>
      intro c hc hmin
      simp only [ceilSqrtAux]
      exact ⟨by simpa using hc, hmin⟩
  | succ f ih =>
      intro c hc hmin
      by_cases h : n ≤ c * c
      · simp only [ceilSqrtAux, if_pos h]
        exact ⟨h, hmin⟩
      · simp only [ceilSqrtAux, if_neg h]
        apply ih
        · have hrw : c + 1 + f = c + (f + 1) := by omega
          rw [hrw]
          exact hc
        · intro d hd
          rcases Nat.lt_succ_iff_lt_or_eq.mp hd with h' | h'
          · exact hmin d h'
          · subst h'
            omega

/-- `ceilSqrt n` is the least `c` with `n ≤ c*c` — the exact
`ceil(sqrt n)`. -/
lemma ceilSqrt_spec (n : ℕ) :
    n ≤ ceilSqrt n * ceilSqrt n ∧ ∀ d, n ≤ d * d → ceilSqrt n ≤ d := by
  have base : n ≤ (0 + n) * (0 + n) := by
    simp only [Nat.zero_add]
    rcases Nat.eq_zero_or_pos n with h | h
    · simp [h]
    · exact Nat.le_mul_of_pos_left n h
  have h := ceilSqrtAux_spec n n 0 base (by omega)
  refine ⟨h.1, ?_⟩
  intro d hd
  by_contra hc
  push_neg at hc
  have := h.2 d hc
  omega

lemma ceilSqrt_pos {n : ℕ} (hn : 0 < n) : 0 < ceilSqrt n := by
  by_contra h
  push_neg at h
  have h0 : ceilSqrt n = 0 := by omega
  have := (ceilSqrt_spec n).1
  rw [h0] at this
  omega

lemma ceilLog2Aux_spec (n : ℕ) :
    ∀ fuel k, n ≤ 2 ^ (k + fuel) → (∀ j, j < k → 2 ^ j < n) →
      n ≤ 2 ^ ceilLog2Aux n fuel k
      ∧ ∀ j, j < ceilLog2Aux n fuel k → 2 ^ j < n := by
  intro fuel
  induction fuel with
  | zero =>
      intro k hk hmin
      simp only [ceilLog2Aux]
      exact ⟨by simpa using hk, hmin⟩
  | succ f ih =>
      intro k hk hmin
      by_cases h : n ≤ 2 ^ k
      · simp only [ceilLog2Aux, if_pos h]
        exact ⟨h, hmin⟩
      · simp only [ceilLog2Aux, if_neg h]
        apply ih
        · have hrw : k + 1 + f = k + (f + 1) := by omega
          rw [hrw]
          exact hk
        · intro j hj
          rcases Nat.lt_succ_iff_lt_or_eq.mp hj with h' | h'
          · exact hmin j h'
          · subst h'
            omega

/-- `ceilLog2 n` yields the least `k` with `n ≤ 2^k` — so `2^(ceilLog2 n)`
is the next power of two at or above `n`. -/
lemma ceilLog2_spec (n : ℕ) :
    n ≤ 2 ^ ceilLog2 n ∧ ∀ j, n ≤ 2 ^ j → ceilLog2 n ≤ j := by
  have base : n ≤ 2 ^ (0 + n) := by
    simp only [Nat.zero_add]
    exact Nat.le_of_lt (Nat.lt_two_pow n)
  have h := ceilLog2Aux_spec n n 0 base (by omega)
  refine ⟨h.1, ?_⟩
  intro j hj
  by_contra hc
  push_neg at hc
  have := h.2 j hc
  omega

lemma gridLayout_tpt_pos {S T : ℕ} (hS : 1 ≤ S) (hT : 1 ≤ T) :
    0 < (gridLayout S T).tilesPerTarget :=
  ceilDiv_pos hT hS

lemma gridLayout_gc_pos {S T : ℕ} (hS : 1 ≤ S) (hT : 1 ≤ T) :
    0 < (gridLayout S T).gridCols :=
  ceilSqrt_pos (gridLayout_tpt_pos hS hT)

/-- C2: the planner computes `tilesPerTarget = ceil(S/T)`,
`gridCols = ceil(sqrt(tilesPerTarget))` (least `c` with `tpt ≤ c²`),
`gridRows = ceil(tilesPerTarget/gridCols)`, `cellSize = 1/gridCols`,
`targetTilesPerRow = ceil(sqrt T)`, and assigns sorted rank `r` to slot
`r / tilesPerTarget` (column `slot % targetTilesPerRow`, row
`slot / targetTilesPerRow`) and to cell
`(c % gridCols, c / gridCols)` with `c = r % tilesPerTarget`; for
`S = 4`, `T = 1` the rank-2 source tile lands in the sole target tile
1001 at cell (0, 1). -/
theorem C2_planner_grid_formulas (S T : ℕ) (hS : 1 ≤ S) (hT : 1 ≤ T) :
    (((gridLayout S T).tilesPerTarget : ℤ) = ⌈(S : ℚ) / (T : ℚ)⌉)
    ∧ ((gridLayout S T).tilesPerTarget
          ≤ (gridLayout S T).gridCols * (gridLayout S T).gridCols
       ∧ ∀ d : ℕ, (gridLayout S T).tilesPerTarget ≤ d * d →
          (gridLayout S T).gridCols ≤ d)
    ∧ (((gridLayout S T).gridRows : ℤ)
        = ⌈((gridLayout S T).tilesPerTarget : ℚ) / ((gridLayout S T).gridCols : ℚ)⌉)
    ∧ ((gridLayout S T).cellSize = 1 / ((gridLayout S T).gridCols : ℚ))
    ∧ (T ≤ (gridLayout S T).targetTilesPerRow * (gridLayout S T).targetTilesPerRow
       ∧ ∀ d : ℕ, T ≤ d * d → (gridLayout S T).targetTilesPerRow ≤ d)
    ∧ (∀ r : ℕ,
        placementOfRank (gridLayout S T) r =
          { targetSlot := r / (gridLayout S T).tilesPerTarget
            targetU := r / (gridLayout S T).tilesPerTarget
                % (gridLayout S T).targetTilesPerRow
            targetV := r / (gridLayout S T).tilesPerTarget
                / (gridLayout S T).targetTilesPerRow
            targetTile := 1001
              + ((r / (gridLayout S T).tilesPerTarget
                  / (gridLayout S T).targetTilesPerRow : ℕ) : ℤ) * 10
              + ((r / (gridLayout S T).tilesPerTarget
                  % (gridLayout S T).targetTilesPerRow : ℕ) : ℤ)
            cellCol := r % (gridLayout S T).tilesPerTarget % (gridLayout S T).gridCols
            cellRow := r % (gridLayout S T).tilesPerTarget / (gridLayout S T).gridCols })
    ∧ placementOfRank (gridLayout 4 1) 2 =
        { targetSlot := 0, targetU := 0, targetV := 0, targetTile := 1001,
          cellCol := 0, cellRow := 1 } := by
  refine ⟨?_, ⟨?_, ?_⟩, ?_, rfl, ⟨?_, ?_⟩, ?_, ?_⟩
  · exact ceilDiv_eq_ceil hT S
  · exact (ceilSqrt_spec (gridLayout S T).tilesPerTarget).1
  · exact (ceilSqrt_spec (gridLayout S T).tilesPerTarget).2
  · exact ceilDiv_eq_ceil (gridLayout_gc_pos hS hT) (gridLayout S T).tilesPerTarget
  · exact (ceilSqrt_spec T).1
  · exact (ceilSqrt_spec T).2
  · intro r
    rfl
  · decide

/-- Witness for C2 at `S = 4`, `T = 1`. -/
theorem C2_planner_grid_formulas_witness :
    (((gridLayout 4 1).tilesPerTarget : ℤ) = ⌈(4 : ℚ) / (1 : ℚ)⌉)
    ∧ placementOfRank (gridLayout 4 1) 2 =
        { targetSlot := 0, targetU := 0, targetV := 0, targetTile := 1001,
          cellCol := 0, cellRow := 1 } := by
  have h := C2_planner_grid_formulas 4 1 (by norm_num) (by norm_num)
  exact ⟨h.1, h.2.2.2.2.2.2⟩

/-- C3 counterexample: the claim's example value is wrong — both
`tileOf(1.0, 0.0)` and `tileOf(0.999, 0.0)` evaluate to 1001
(the tile covering `[0,1)×[0,1)`), not 1002. -/
theorem C3_boundary_example_is_1001 :
    get_udim_tile_from_uv 1 0 = 1001 ∧ get_udim_tile_from_uv (999/1000) 0 = 1001
    ∧ ¬ (get_udim_tile_from_uv 1 0 = 1002) := by
  have hadj1 : adjustUV (1 : ℚ) = 1 - 1/1000 := by
    have := adjustUV_nat_pos 1 le_rfl
    simpa using this
  have hadj0 : adjustUV (0 : ℚ) = 0 := by simp [adjustUV]
  have hadj999 : adjustUV (999/1000 : ℚ) = 999/1000 := by
    apply adjustUV_of_ne
    have : pyInt (999/1000 : ℚ) = 0 := by
      rw [pyInt_eq_floor (by norm_num)]
      rw [Int.floor_eq_iff]
      norm_num
    rw [this]
    norm_num
  have h1 : get_udim_tile_from_uv 1 0 = 1001 := by
    unfold get_udim_tile_from_uv
    rw [hadj1, hadj0]
    have : ⌊(1 : ℚ) - 1/1000⌋ = 0 := by
      rw [Int.floor_eq_iff]
      norm_num
    rw [this]
    norm_num
  have h2 : get_udim_tile_from_uv (999/1000) 0 = 1001 := by
    unfold get_udim_tile_from_uv
    rw [hadj999, hadj0]
    have : ⌊(999/1000 : ℚ)⌋ = 0 := by
      rw [Int.floor_eq_iff]
      norm_num
    rw [this]
    norm_num
  exact ⟨h1, h2, by rw [h1]; norm_num⟩

/-- C3 amended: for `u, v` POSITIVE integers and every `ε` with
`0 < ε < 1`, `tileOf(u, v) = tileOf(u−ε, v−ε)
= 1001 + (v−1)*10 + (u−1)` — boundary coordinates bind to the tile
below/left.  (The original claim fails at `v = 0`, where `v − ε` is
negative and changes tile row, and its example value 1002 is wrong:
`tileOf(1.0, 0.0) = tileOf(0.999, 0.0) = 1001.) -/
theorem C3_boundary_binds_below (u v : ℕ) (hu : 1 ≤ u) (hv : 1 ≤ v)
    (ε : ℚ) (h0 : 0 < ε) (h1 : ε < 1) :
    get_udim_tile_from_uv (u : ℚ) (v : ℚ)
      = get_udim_tile_from_uv ((u : ℚ) - ε) ((v : ℚ) - ε)
    ∧ get_udim_tile_from_uv (u : ℚ) (v : ℚ)
      = 1001 + ((v : ℤ) - 1) * 10 + ((u : ℤ) - 1) := by
  have key : ∀ k : ℕ, 1 ≤ k → ⌊adjustUV (k : ℚ)⌋ = (k : ℤ) - 1 := by
    intro k hk
    rw [adjustUV_nat_pos k hk]
    exact floor_cast_sub_small k (by norm_num) (by norm_num)
  have keyEps : ∀ k : ℕ, 1 ≤ k → ⌊adjustUV ((k : ℚ) - ε)⌋ = (k : ℤ) - 1 := by
    intro k hk
    have hk1 : (1 : ℚ) ≤ (k : ℚ) := by exact_mod_cast hk
    have hfl : ⌊(k : ℚ) - ε⌋ = (k : ℤ) - 1 :=
      floor_cast_sub_small k h0 (le_of_lt h1)
    have hne : ((k : ℚ) - ε) ≠ (pyInt ((k : ℚ) - ε) : ℚ) := by
      rw [pyInt_eq_floor (by linarith), hfl]
      push_cast
      intro hcon
      have : ε = 1 := by linarith
      linarith
    rw [adjustUV_of_ne hne]
    exact hfl
  constructor
  · unfold get_udim_tile_from_uv
    rw [key u hu, key v hv, keyEps u hu, keyEps v hv]
  · unfold get_udim_tile_from_uv
    rw [key u hu, key v hv]

/-- Witness for C3 at `u = v = 1`, `ε = 1/2`. -/
theorem C3_boundary_binds_below_witness :
    get_udim_tile_from_uv (1 : ℚ) (1 : ℚ)
      = get_udim_tile_from_uv ((1 : ℚ) - 1/2) ((1 : ℚ) - 1/2)
    ∧ get_udim_tile_from_uv (1 : ℚ) (1 : ℚ) = 1001 := by
  have h := C3_boundary_binds_below 1 1 le_rfl le_rfl (1/2) (by norm_num) (by norm_num)
  refine ⟨by exact_mod_cast h.1, ?_⟩
  have h2 := h.2
  norm_num at h2
  exact_mod_cast h2

lemma adjustUV_noop {q : ℚ} (h : q ≠ (pyInt q : ℚ) ∨ q = 0) : adjustUV q = q := by
  unfold adjustUV
  rw [if_pos h]

/-! ## C4: primary tile versus tileOf at the bounding-box center -/

/-- A mesh whose UV bounding box is centered exactly on the tile
boundary `u = 1`. -/
def c4Obj : SObj :=
  { objType := "MESH", hasUVLayers := true, hasActiveUV := true,
    loops := [(1/2, 1/2), (3/2, 1/2)], materials := [] }

/-- C4 counterexample: `get_object_primary_udim` floors the bounding-box
center WITHOUT the boundary adjustment, so for a center of (1.0, 0.5) it
answers tile 1002 while `get_udim_tile_from_uv` at the same point
answers 1001 — the two are not the same function of the center. -/
theorem C4_center_boundary_mismatch :
    uvCenter c4Obj = some (1, 1/2)
    ∧ get_object_primary_udim c4Obj = some 1002
    ∧ get_udim_tile_from_uv 1 (1/2) = 1001
    ∧ get_object_primary_udim c4Obj ≠ some (get_udim_tile_from_uv 1 (1/2)) := by
  have hc : uvCenter c4Obj = some (1, 1/2) := by
    simp only [uvCenter, c4Obj, uvBBox, List.foldl]
    norm_num [min_def, max_def]
  have hp : get_object_primary_udim c4Obj = some 1002 := by
    simp only [get_object_primary_udim, c4Obj]
    norm_num
    simp only [uvCenter, c4Obj, uvBBox, List.foldl]
    norm_num [min_def, max_def]
  have ht : get_udim_tile_from_uv 1 (1/2) = 1001 := by
    have h1 : adjustUV (1 : ℚ) = 1 - 1/1000 := by
      have := adjustUV_nat_pos 1 le_rfl
      simpa using this
    have h2 : adjustUV (1/2 : ℚ) = 1/2 := by
      apply adjustUV_noop
      left
      have : pyInt (1/2 : ℚ) = 0 := by
        rw [pyInt_eq_floor (by norm_num)]
        norm_num
      rw [this]
      norm_num
    unfold get_udim_tile_from_uv
    rw [h1, h2]
    norm_num
  refine ⟨hc, hp, ht, ?_⟩
  rw [hp, ht]
  intro h
  simp at h

/-- C4 amended: `primaryTileOf` returns `none` for non-mesh or UV-less
surfaces, and otherwise returns `1001 + 10*floor(center_v) +
floor(center_u)` of the bounding-box center, WITHOUT the boundary
adjustment; it agrees with `tileOf(center)` exactly on centers whose
coordinates are each zero or non-integral (the boundary adjustment
being a no-op there). -/
theorem C4_primary_is_plain_floor_of_center (o : SObj) :
    (o.objType ≠ "MESH" ∨ o.hasUVLayers = false → get_object_primary_udim o = none)
    ∧ (∀ c : ℚ × ℚ,
        o.objType = "MESH" → o.hasUVLayers = true → o.hasActiveUV = true →
        uvCenter o = some c →
        get_object_primary_udim o = some (1001 + ⌊c.2⌋ * 10 + ⌊c.1⌋)
        ∧ ((c.1 ≠ (pyInt c.1 : ℚ) ∨ c.1 = 0) → (c.2 ≠ (pyInt c.2 : ℚ) ∨ c.2 = 0) →
           get_object_primary_udim o = some (get_udim_tile_from_uv c.1 c.2))) := by
  constructor
  · intro h
    unfold get_object_primary_udim
    rw [if_pos h]
  · intro c hT hU hA hc
    have hcond : ¬ (o.objType ≠ "MESH" ∨ o.hasUVLayers = false) := by
      push_neg
      exact ⟨by rw [hT], by rw [hU]; simp⟩
    have hval : get_object_primary_udim o = some (1001 + ⌊c.2⌋ * 10 + ⌊c.1⌋) := by
      unfold get_object_primary_udim
      rw [if_neg hcond, if_neg (by rw [hA]; simp), hc]
    refine ⟨hval, ?_⟩
    intro h1 h2
    rw [hval]
    unfold get_udim_tile_from_uv
    rw [adjustUV_noop h1, adjustUV_noop h2]

/-- Witness for C4 at a mesh with center (1/4, 1/4). -/
theorem C4_primary_is_plain_floor_of_center_witness :
    get_object_primary_udim
        { objType := "MESH", hasUVLayers := true, hasActiveUV := true,
          loops := [(1/4, 1/4)], materials := [] }
      = some (get_udim_tile_from_uv (1/4) (1/4)) := by
  have h := (C4_primary_is_plain_floor_of_center
    { objType := "MESH", hasUVLayers := true, hasActiveUV := true,
      loops := [(1/4, 1/4)], materials := [] }).2 (1/4, 1/4) rfl rfl rfl
    (by
      simp only [uvCenter, uvBBox, List.foldl]
      norm_num)
  apply h.2
  · left
    have : pyInt (1/4 : ℚ) = 0 := by
      rw [pyInt_eq_floor (by norm_num)]
      norm_num
    rw [this]
    norm_num
  · left
    have : pyInt (1/4 : ℚ) = 0 := by
      rw [pyInt_eq_floor (by norm_num)]
      norm_num
    rw [this]
    norm_num

/-! ## C5: one-hop structural pass versus recursive per-socket lookup -/

def woodImg : Image := ⟨"wood_basecolor.png", 1024, 1024⟩

/-- A network in which the Base Color input of the Principled BSDF
reaches the image node only through one intermediate mix node:
node 0 = image, node 1 = mix (A input linked from node 0),
node 2 = principled (Base Color input linked from node 1). -/
def mixMat : Material :=
  { useNodes := true,
    nodes :=
      [ ⟨"TEX_IMAGE", some woodImg, []⟩,
        ⟨"MIX", none, [⟨"A", [0]⟩, ⟨"B", []⟩]⟩,
        ⟨"BSDF_PRINCIPLED", none, [⟨"Base Color", [1]⟩]⟩ ] }

/-- C5 counterexample: on `mixMat` the structural pass
(`get_principled_bsdf_textures`) resolves NOTHING — it follows exactly
one hop and stops at the mix node — while the recursive per-socket
lookup (`find_connected_texture_recursive`), starting from the very
same Base Color input, does reach the image. -/
theorem C5_structural_pass_is_one_hop :
    get_principled_bsdf_textures mixMat = []
    ∧ findConnectedTexture mixMat.nodes ⟨"Base Color", [1]⟩ = some woodImg := by
  constructor
  · simp [get_principled_bsdf_textures, mixMat, List.find?]
  · simp [findConnectedTexture, mixMat, fctr, fctrInputs, List.find?]

/-- A reroute chain: node 0 is the image node, node `i+1` is an
intermediate node whose single input links back to node `i`. -/
def chainNodes (img : Image) (n : ℕ) : List GNode :=
  ⟨"TEX_IMAGE", some img, []⟩ ::
    (List.range n).map (fun i => ⟨"REROUTE", none, [⟨"Input", [i]⟩]⟩)

lemma fctr_chain (img : Image) (n : ℕ) :
    ∀ k fuel vis sname, k ≤ n → k + 1 ≤ fuel → (∀ j ∈ vis, k < j) →
      (fctr (chainNodes img n) fuel ⟨sname, [k]⟩ vis).1 = some img := by
  intro k
  induction k with
  | zero =>
      intro fuel vis sname _ hfuel hvis
      obtain ⟨f, rfl⟩ : ∃ f, fuel = f + 1 := ⟨fuel - 1, by omega⟩
      have h0 : (0 : ℕ) ∉ vis := fun hmem => absurd (hvis 0 hmem) (by omega)
      simp [fctr, chainNodes, h0]
  | succ k ih =>
      intro fuel vis sname hk hfuel hvis
      obtain ⟨f, rfl⟩ : ∃ f, fuel = f + 1 := ⟨fuel - 1, by omega⟩
      have hmem : (k + 1) ∉ vis := fun hm => absurd (hvis _ hm) (by omega)
      have hidx : (chainNodes img n)[k + 1]? =
          some ⟨"REROUTE", none, [⟨"Input", [k]⟩]⟩ := by
        simp only [chainNodes, List.getElem?_cons_succ, List.getElem?_map,
          List.getElem?_range (by omega : k < n)]
        rfl
      have hrec := ih f (vis ++ [k + 1]) "Input" (by omega) (by omega)
        (by
          intro j hj
          rcases List.mem_append.mp hj with hj | hj
          · exact Nat.lt_trans (Nat.lt_succ_self k) (hvis j hj)
          · simp at hj
            omega)
      have hnotimg : ¬ (("REROUTE" : String) = "TEX_IMAGE"
          ∧ (none : Option Image).isSome = true) := by
        decide
      simp only [fctr, hidx, if_neg hmem, if_neg hnotimg]
      obtain ⟨r, v2, hpair⟩ :
          ∃ r v2, fctr (chainNodes img n) f ⟨"Input", [k]⟩ (vis ++ [k + 1]) = (r, v2) :=
        ⟨_, _, rfl⟩
      rw [hpair] at hrec
      simp only at hrec
      subst hrec
      simp only [fctrInputs, hpair]

/-- A two-node cycle: each mix node's input links to the other. -/
def cycleNodes : List GNode :=
  [⟨"MIX", none, [⟨"A", [1]⟩]⟩, ⟨"MIX", none, [⟨"A", [0]⟩]⟩]

/-- C5 amended: the RECURSIVE per-socket lookup
(`find_connected_texture_recursive`, used by
`detect_source_udims_for_socket` for standard channels) follows links
backward through arbitrarily many intermediate nodes until it reaches
an image node, and its visited-set makes a cyclic graph terminate with
no image; the channel-map structural pass
(`get_principled_bsdf_textures`) follows only one hop and does not
resolve images behind intermediate nodes (see the counterexample). -/
theorem C5_recursive_lookup_resolves_chains (img : Image) (n : ℕ) :
    findConnectedTexture (chainNodes img n) ⟨"In", [n]⟩ = some img
    ∧ findConnectedTexture cycleNodes ⟨"In", [0]⟩ = none := by
  constructor
  · unfold findConnectedTexture
    apply fctr_chain img n n _ [] "In" le_rfl
    · simp [chainNodes]
    · simp
  · simp [findConnectedTexture, cycleNodes, fctr, fctrInputs]

/-! ## C6: first image found per tile wins -/

lemma lookup_append_of_some {α β : Type} [DecidableEq α] {l : List (α × β)}
    {k : α} {v : β} (h : l.lookup k = some v) (l2 : List (α × β)) :
    (l ++ l2).lookup k = some v := by
  induction l with
  | nil => simp [List.lookup] at h
  | cons p t ih =>
      rcases p with ⟨k1, v1⟩
      by_cases hk : k = k1
      · subst hk
        simp [List.lookup] at h ⊢
        exact h
      · simp [List.lookup, beq_false_of_ne hk] at h ⊢
        exact ih h

lemma lookup_append_singleton {α β : Type} [DecidableEq α] {l : List (α × β)}
    {k k2 : α} {v v2 : β} (h : (l ++ [(k2, v2)]).lookup k = some v) :
    l.lookup k = some v ∨ (k = k2 ∧ v = v2) := by
  induction l with
  | nil =>
      right
      by_cases hk : k = k2
      · subst hk
        simp [List.lookup] at h
        exact ⟨rfl, h.symm⟩
      · simp [List.lookup, beq_false_of_ne hk] at h
  | cons p t ih =>
      rcases p with ⟨k1, v1⟩
      by_cases hk : k = k1
      · subst hk
        simp [List.lookup] at h ⊢
        left
        exact h
      · simp only [List.cons_append, List.lookup, beq_false_of_ne hk] at h ⊢
        exact ih h

lemma detectStep_tileTexture_preserve (texOf : SObj → Option Image)
    (st : DetectState) (o : SObj) {tile : ℤ} {img : Image}
    (h : st.tileTexture.lookup tile = some img) :
    (detectStep texOf st o).tileTexture.lookup tile = some img := by
  unfold detectStep
  split
  · exact h
  · split
    · exact h
    · rcases hpr : get_object_primary_udim o with _ | t2
      · simp only [hpr]
        exact h
      · simp only [hpr]
        split
        · exact h
        · rcases htex : texOf o with _ | timg
          · simp only [htex]
            exact h
          · simp only [htex]
            split
            · exact h
            · exact lookup_append_of_some h _

lemma detectStep_tileTexture_create (texOf : SObj → Option Image)
    (st : DetectState) (o : SObj) {tile : ℤ} {img : Image}
    (h : (detectStep texOf st o).tileTexture.lookup tile = some img) :
    st.tileTexture.lookup tile = some img
    ∨ (get_object_primary_udim o = some tile ∧ texOf o = some img) := by
  unfold detectStep at h
  split at h
  · exact Or.inl h
  · split at h
    · exact Or.inl h
    · rcases hpr : get_object_primary_udim o with _ | t2
      · simp only [hpr] at h
        exact Or.inl h
      · simp only [hpr] at h
        split at h
        · exact Or.inl h
        · rcases htex : texOf o with _ | timg
          · simp only [htex] at h
            exact Or.inl h
          · simp only [htex] at h
            split at h
            · exact Or.inl h
            · rcases lookup_append_singleton h with h' | ⟨hk, hv⟩
              · exact Or.inl h'
              · subst hk
                subst hv
                exact Or.inr ⟨rfl, rfl⟩

lemma foldl_detectStep_preserve (texOf : SObj → Option Image)
    (objs : List SObj) (st : DetectState) {tile : ℤ} {img : Image}
    (h : st.tileTexture.lookup tile = some img) :
    (objs.foldl (detectStep texOf) st).tileTexture.lookup tile = some img := by
  induction objs generalizing st with
  | nil => exact h
  | cons o t ih =>
      exact ih (detectStep texOf st o) (detectStep_tileTexture_preserve texOf st o h)

lemma foldl_detectStep_create (texOf : SObj → Option Image)
    (objs : List SObj) (st : DetectState) {tile : ℤ} {img : Image}
    (h : (objs.foldl (detectStep texOf) st).tileTexture.lookup tile = some img) :
    st.tileTexture.lookup tile = some img
    ∨ ∃ o ∈ objs, get_object_primary_udim o = some tile ∧ texOf o = some img := by
  induction objs generalizing st with
  | nil => exact Or.inl h
  | cons o t ih =>
      rcases ih (detectStep texOf st o) h with h' | ⟨o', ho', hpr, htex⟩
      · rcases detectStep_tileTexture_create texOf st o h' with h'' | h''
        · exact Or.inl h''
        · exact Or.inr ⟨o, List.mem_cons_self o t, h''⟩
      · exact Or.inr ⟨o', List.mem_cons_of_mem o ho', hpr, htex⟩

/-- C6: while surveying surfaces for one channel, the first image
resolved for a source tile is kept for that tile — the entry
established by a prefix of the surface list survives any continuation
of the survey unchanged — and an entry only ever exists because some
surveyed surface with that primary tile actually resolved that image. -/
theorem C6_first_image_per_tile_wins (sock : String) (objs extra : List SObj)
    (tile : ℤ) (img : Image)
    (h : (detect_source_udims_for_socket objs sock).2.2.lookup tile = some img) :
    (detect_source_udims_for_socket (objs ++ extra) sock).2.2.lookup tile = some img
    ∧ ∃ o ∈ objs, get_object_primary_udim o = some tile
        ∧ objTextureForSocket sock o = some img := by
  unfold detect_source_udims_for_socket at h ⊢
  simp only at h ⊢
  constructor
  · rw [List.foldl_append]
    exact foldl_detectStep_preserve _ extra _ h
  · rcases foldl_detectStep_create _ objs _ h with h' | h'
    · simp [List.lookup] at h'
    · exact h'

lemma uvCenter_single (x y : ℚ) (mats : List (Option Material)) :
    uvCenter { objType := "MESH", hasUVLayers := true, hasActiveUV := true,
               loops := [(x, y)], materials := mats } = some (x, y) := by
  simp only [uvCenter, uvBBox, List.foldl, min_self, max_self]
  have h1 : (x + x) / 2 = x := by ring
  have h2 : (y + y) / 2 = y := by ring
  rw [h1, h2]

lemma primary_single (x y : ℚ) (mats : List (Option Material)) :
    get_object_primary_udim
        { objType := "MESH", hasUVLayers := true, hasActiveUV := true,
          loops := [(x, y)], materials := mats }
      = some (1001 + ⌊y⌋ * 10 + ⌊x⌋) := by
  unfold get_object_primary_udim
  rw [if_neg (by simp), if_neg (by simp), uvCenter_single]

def imgA : Image := ⟨"A.png", 4, 4⟩

def imgB : Image := ⟨"B.png", 4, 4⟩

/-- A material whose Base Color input links directly to an image node. -/
def matBC (img : Image) : Material :=
  { useNodes := true,
    nodes :=
      [ ⟨"TEX_IMAGE", some img, []⟩,
        ⟨"BSDF_PRINCIPLED", none, [⟨"Base Color", [0]⟩]⟩ ] }

def objBC (img : Image) : SObj :=
  { objType := "MESH", hasUVLayers := true, hasActiveUV := true,
    loops := [(1/2, 1/2)], materials := [some (matBC img)] }

/-- Witness for C6: two surfaces share tile 1001 with different Base
Color images; the first surface's image survives the second. -/
theorem C6_first_image_per_tile_wins_witness :
    (detect_source_udims_for_socket [objBC imgA, objBC imgB] "Base Color").2.2.lookup 1001
      = some imgA
    ∧ ∃ o ∈ [objBC imgA], get_object_primary_udim o = some 1001
        ∧ objTextureForSocket "Base Color" o = some imgA := by
  have hpr : get_object_primary_udim (objBC imgA) = some 1001 := by
    unfold objBC
    rw [primary_single]
    norm_num
  have htex : objTextureForSocket "Base Color" (objBC imgA) = some imgA := by
    simp [objTextureForSocket, objBC, matBC, standardSockets, List.find?,
      findConnectedTexture, fctr, fctrInputs]
  have h : (detect_source_udims_for_socket [objBC imgA] "Base Color").2.2.lookup 1001
      = some imgA := by
    unfold detect_source_udims_for_socket
    simp only [List.foldl]
    unfold detectStep
    rw [if_neg (by simp [objBC]), if_neg (by simp [objBC]), hpr]
    norm_num [htex, List.lookup]
  have := C6_first_image_per_tile_wins "Base Color" [objBC imgA] [objBC imgB]
    1001 imgA h
  exact this

/-! ## C1: the compositor recomputes the grid from DETECTED target
tiles, not the requested target count -/

def mat1 : Material := ⟨true, [⟨"TEX_IMAGE", some imgA, []⟩]⟩

def c1Obj0 : SObj := ⟨"MESH", true, true, [(1/2, 1/2)], [some mat1]⟩

def c1Obj1 : SObj := ⟨"MESH", true, true, [(3/2, 1/2)], [some mat1]⟩

def c1Obj2 : SObj := ⟨"MESH", true, true, [(5/2, 1/2)], [some mat1]⟩

/-- Three single-loop meshes sitting in source tiles 1001, 1002, 1003. -/
def c1Objects : List SObj := [c1Obj0, c1Obj1, c1Obj2]

def srcImgA : SrcImage := ⟨"srcA.png", PMode.rgb⟩

/-- Every tile decodes successfully. -/
def c1Load : ℤ → Option SrcImage := fun _ => some srcImgA

lemma pyInt_half : pyInt (1/2 : ℚ) = 0 := by
  rw [pyInt_eq_floor (by norm_num)]
  norm_num

lemma tct_half : tileCoordTrunc (1/2 : ℚ) = 0 := by
  unfold tileCoordTrunc
  rw [adjustUV_noop (Or.inl (by rw [pyInt_half]; norm_num)), pyInt_half]

lemma tct_3half : tileCoordTrunc (3/2 : ℚ) = 1 := by
  have hp : pyInt (3/2 : ℚ) = 1 := by
    rw [pyInt_eq_floor (by norm_num)]
    norm_num
  unfold tileCoordTrunc
  rw [adjustUV_noop (Or.inl (by rw [hp]; norm_num)), hp]

lemma tct_5half : tileCoordTrunc (5/2 : ℚ) = 2 := by
  have hp : pyInt (5/2 : ℚ) = 2 := by
    rw [pyInt_eq_floor (by norm_num)]
    norm_num
  unfold tileCoordTrunc
  rw [adjustUV_noop (Or.inl (by rw [hp]; norm_num)), hp]

lemma primary_c1Obj0 : get_object_primary_udim c1Obj0 = some 1001 := by
  unfold c1Obj0
  rw [primary_single]
  norm_num

lemma primary_c1Obj1 : get_object_primary_udim c1Obj1 = some 1002 := by
  unfold c1Obj1
  rw [primary_single]
  norm_num

lemma primary_c1Obj2 : get_object_primary_udim c1Obj2 = some 1003 := by
  unfold c1Obj2
  rw [primary_single]
  norm_num

lemma tex_c1 : firstAnyTexture c1Obj0 = some imgA
    ∧ firstAnyTexture c1Obj1 = some imgA ∧ firstAnyTexture c1Obj2 = some imgA := by
  refine ⟨?_, ?_, ?_⟩ <;> simp [firstAnyTexture, c1Obj0, c1Obj1, c1Obj2, mat1, List.find?]

lemma step_c1Obj0 (st : DetectState) :
    detectStep firstAnyTexture st c1Obj0 =
      { sourceTiles := addTile st.sourceTiles 1001
        tileObjects := addTileObject st.tileObjects 1001 c1Obj0
        tileTexture := if (st.tileTexture.lookup 1001).isSome then st.tileTexture
                       else st.tileTexture ++ [(1001, imgA)] } := by
  unfold detectStep
  rw [if_neg (by simp [c1Obj0]), if_neg (by simp [c1Obj0])]
  simp only [primary_c1Obj0]
  rw [if_neg (by norm_num)]
  simp only [tex_c1.1]

lemma step_c1Obj1 (st : DetectState) :
    detectStep firstAnyTexture st c1Obj1 =
      { sourceTiles := addTile st.sourceTiles 1002
        tileObjects := addTileObject st.tileObjects 1002 c1Obj1
        tileTexture := if (st.tileTexture.lookup 1002).isSome then st.tileTexture
                       else st.tileTexture ++ [(1002, imgA)] } := by
  unfold detectStep
  rw [if_neg (by simp [c1Obj1]), if_neg (by simp [c1Obj1])]
  simp only [primary_c1Obj1]
  rw [if_neg (by norm_num)]
  simp only [tex_c1.2.1]

lemma step_c1Obj2 (st : DetectState) :
    detectStep firstAnyTexture st c1Obj2 =
      { sourceTiles := addTile st.sourceTiles 1003
        tileObjects := addTileObject st.tileObjects 1003 c1Obj2
        tileTexture := if (st.tileTexture.lookup 1003).isSome then st.tileTexture
                       else st.tileTexture ++ [(1003, imgA)] } := by
  unfold detectStep
  rw [if_neg (by simp [c1Obj2]), if_neg (by simp [c1Obj2])]
  simp only [primary_c1Obj2]
  rw [if_neg (by norm_num)]
  simp only [tex_c1.2.2]

lemma detect_c1 : detect_source_udims c1Objects =
    ([1001, 1002, 1003],
     [(1001, [c1Obj0]), (1002, [c1Obj1]), (1003, [c1Obj2])],
     [(1001, imgA), (1002, imgA), (1003, imgA)]) := by
  unfold detect_source_udims c1Objects
  simp only [List.foldl, step_c1Obj0, step_c1Obj1, step_c1Obj2]
  have e1 : ((1002 : ℤ) == 1001) = false := by decide
  have e2 : ((1003 : ℤ) == 1001) = false := by decide
  have e3 : ((1003 : ℤ) == 1002) = false := by decide
  have e4 : ((1001 : ℤ) == 1001) = true := by decide
  have e5 : ((1002 : ℤ) == 1002) = true := by decide
  have e6 : ((1003 : ℤ) == 1003) = true := by decide
  norm_num [addTile, addTileObject, dictSet, List.lookup, sortAsc, insertAsc,
    e1, e2, e3, e4, e5, e6]

lemma grid_3_5 : gridLayout 3 5 =
    { tilesPerTarget := 1, gridCols := 1, gridRows := 1, cellSize := 1,
      targetTilesPerRow := 3 } := by
  have h1 : ceilDiv 3 5 = 1 := by decide
  have h2 : ceilSqrt 1 = 1 := by decide
  have h3 : ceilSqrt 5 = 3 := by decide
  have h4 : ceilDiv 1 1 = 1 := by decide
  simp only [gridLayout, h1, h2, h3, h4]
  norm_num

lemma grid_3_3 : gridLayout 3 3 =
    { tilesPerTarget := 1, gridCols := 1, gridRows := 1, cellSize := 1,
      targetTilesPerRow := 2 } := by
  have h1 : ceilDiv 3 3 = 1 := by decide
  have h2 : ceilSqrt 1 = 1 := by decide
  have h3 : ceilSqrt 3 = 2 := by decide
  have h4 : ceilDiv 1 1 = 1 := by decide
  simp only [gridLayout, h1, h2, h3, h4]
  norm_num

lemma repack_c1 : repack_uvs_udim_based c1Objects 5 =
    ([c1Obj0, c1Obj1, c1Obj2], [1001, 1002, 1003],
     [(1001, imgA), (1002, imgA), (1003, imgA)]) := by
  unfold repack_uvs_udim_based
  rw [detect_c1]
  simp only [List.length_cons, List.length_nil]
  rw [if_neg (by simp)]
  rw [grid_3_5]
  have t0 : repackObject
      { tilesPerTarget := 1, gridCols := 1, gridRows := 1, cellSize := 1,
        targetTilesPerRow := 3 }
      (placementOfRank
        { tilesPerTarget := 1, gridCols := 1, gridRows := 1, cellSize := 1,
          targetTilesPerRow := 3 } 0) 1001 c1Obj0 = c1Obj0 := by
    simp only [repackObject, placementOfRank, targetTileNum, c1Obj0, List.map,
      transformLoop, tileNumTrunc, tct_half]
    norm_num
  have t1 : repackObject
      { tilesPerTarget := 1, gridCols := 1, gridRows := 1, cellSize := 1,
        targetTilesPerRow := 3 }
      (placementOfRank
        { tilesPerTarget := 1, gridCols := 1, gridRows := 1, cellSize := 1,
          targetTilesPerRow := 3 } 1) 1002 c1Obj1 = c1Obj1 := by
    simp only [repackObject, placementOfRank, targetTileNum, c1Obj1, List.map,
      transformLoop, tileNumTrunc, tct_half, tct_3half]
    norm_num
  have t2 : repackObject
      { tilesPerTarget := 1, gridCols := 1, gridRows := 1, cellSize := 1,
        targetTilesPerRow := 3 }
      (placementOfRank
        { tilesPerTarget := 1, gridCols := 1, gridRows := 1, cellSize := 1,
          targetTilesPerRow := 3 } 2) 1003 c1Obj2 = c1Obj2 := by
    simp only [repackObject, placementOfRank, targetTileNum, c1Obj2, List.map,
      transformLoop, tileNumTrunc, tct_half, tct_5half]
    norm_num
  simp [List.enum, List.enumFrom, List.lookup, t0, t1, t2]

lemma target_detect_c1 : detectTargetTiles [c1Obj0, c1Obj1, c1Obj2]
    = [1001, 1002, 1003] := by
  unfold detectTargetTiles
  simp only [List.foldl, c1Obj0, c1Obj1, c1Obj2, tileNumTrunc, tct_half, tct_3half,
    tct_5half]
  norm_num [addTile, sortAsc, insertAsc]

lemma pyInt_zero : pyInt 0 = 0 := by
  rw [pyInt_eq_floor le_rfl]
  norm_num

def pilA : PILImage := ⟨PMode.rgb, srcImgA, false⟩

lemma pilToRGB_srcA : pilToRGB srcImgA = pilA := by
  simp [pilToRGB, srcImgA, pilA]

lemma composite_c1 :
    composite_textures_with_pil [c1Obj0, c1Obj1, c1Obj2] 8 [1001, 1002, 1003] c1Load
      = some
        [ (1001, ⟨PMode.rgb, (128, 128, 128), 8, [⟨1001, pilA, 8, 0, 0, 0, 0⟩]⟩),
          (1002, ⟨PMode.rgb, (128, 128, 128), 8, [⟨1002, pilA, 8, 0, 0, 0, 0⟩]⟩),
          (1003, blankTarget 8) ] := by
  unfold composite_textures_with_pil
  rw [target_detect_c1]
  have e1 : ((1002 : ℤ) == 1001) = false := by decide
  have e2 : ((1003 : ℤ) == 1001) = false := by decide
  have e3 : ((1003 : ℤ) == 1002) = false := by decide
  have e4 : ((1001 : ℤ) == 1001) = true := by decide
  have e5 : ((1002 : ℤ) == 1002) = true := by decide
  have e6 : ((1003 : ℤ) == 1003) = true := by decide
  have e7 : ((1011 : ℤ) == 1001) = false := by decide
  have e8 : ((1011 : ℤ) == 1002) = false := by decide
  have e9 : ((1011 : ℤ) == 1003) = false := by decide
  have hp8 : pyInt ((8 : ℕ) : ℚ) = 8 := pyInt_natCast 8
  simp only [List.foldl, c1Load, pilToRGB_srcA,
    show (([1001, 1002, 1003] : List ℤ)).length = 3 from rfl,
    List.enum, List.enumFrom, grid_3_3, List.map, blankTarget]
  rw [if_neg (by simp)]
  have hp8q : pyInt (8 : ℚ) = 8 := by
    rw [pyInt_eq_floor (by norm_num)]
    norm_num
  simp only [placementOfRank, targetTileNum, pasteInto, dictSet, List.lookup,
    e1, e2, e3, e4, e5, e6, e7, e8, e9]
  norm_num [pyInt_zero, pyInt_natCast, blankTarget, hp8q,
    e1, e2, e3, e4, e5, e6, e7, e8, e9]

/-- C1 (code bug): for 3 occupied source tiles and a requested target
count of 5, the planner (which uses the REQUESTED count, so
`targetTilesPerRow = ceil(sqrt 5) = 3`) sends the rank-2 source tile
1003 to target tile 1003 and rewrites its UVs there, but the compositor
recomputes the layout from the number of DETECTED occupied target tiles
(3, so `targetTilesPerRow = ceil(sqrt 3) = 2`) and computes target tile
1011 for the same rank; 1011 has no buffer, the paste is skipped, and
persisted tile 1003 remains an untouched background-only buffer —
contradicting the invariant (and the code's own comment, line 1084)
that both derivations match exactly. -/
theorem C1_compositor_grid_mismatch :
    (repack_uvs_udim_based c1Objects 5).2.1 = [1001, 1002, 1003]
    ∧ (gridLayout 3 5).targetTilesPerRow = 3
    ∧ (placementOfRank (gridLayout 3 5) 2).targetTile = 1003
    ∧ detectTargetTiles (repack_uvs_udim_based c1Objects 5).1 = [1001, 1002, 1003]
    ∧ (gridLayout 3 3).targetTilesPerRow = 2
    ∧ (placementOfRank (gridLayout 3 3) 2).targetTile = 1011
    ∧ ∃ l, composite_textures_with_pil (repack_uvs_udim_based c1Objects 5).1 8
            (repack_uvs_udim_based c1Objects 5).2.1 c1Load = some l
        ∧ l.lookup 1003 = some (blankTarget 8) := by
  rw [repack_c1]
  refine ⟨rfl, by decide, by decide, target_detect_c1, by decide, by decide, ?_⟩
  refine ⟨_, composite_c1, ?_⟩
  have e2 : ((1003 : ℤ) == 1001) = false := by decide
  have e3 : ((1003 : ℤ) == 1002) = false := by decide
  have e6 : ((1003 : ℤ) == 1003) = true := by decide
  simp [List.lookup, e2, e3, e6]

/-! ## Compositor invariants shared by the paste/abort/mode claims -/

lemma mem_of_lookup_eq_some {α β : Type} [DecidableEq α] {l : List (α × β)}
    {k : α} {v : β} (h : l.lookup k = some v) : (k, v) ∈ l := by
  induction l with
  | nil => simp [List.lookup] at h
  | cons p t ih =>
      rcases p with ⟨k1, v1⟩
      by_cases hk : k = k1
      · subst hk
        simp [List.lookup] at h
        subst h
        exact List.mem_cons_self _ _
      · simp only [List.lookup, beq_false_of_ne hk] at h
        exact List.mem_cons_of_mem _ (ih h)

lemma foldl_preserve_prop {α β : Type} (P : β → Prop) (f : List β → α → List β)
    (hf : ∀ acc x, (∀ b ∈ acc, P b) → ∀ b ∈ f acc x, P b) :
    ∀ (el : List α) (acc : List β), (∀ b ∈ acc, P b) → ∀ b ∈ el.foldl f acc, P b := by
  intro el
  induction el with
  | nil =>
      intro acc h
      exact h
  | cons x xs ih =>
      intro acc h
      exact ih (f acc x) (hf acc x h)

lemma mem_pasteInto {l : List (ℤ × TargetImage)} {t : ℤ} {p : Paste}
    {pr : ℤ × TargetImage} (h : pr ∈ pasteInto l t p) :
    pr ∈ l ∨ ∃ ti, l.lookup t = some ti
      ∧ pr = (t, { ti with pastes := ti.pastes ++ [p] }) := by
  have hdef : pasteInto l t p =
      match l.lookup t with
      | none => l
      | some img => dictSet l t { img with pastes := img.pastes ++ [p] } := rfl
  rcases hl : l.lookup t with _ | ti
  · rw [hdef, hl] at h
    exact Or.inl h
  · rw [hdef, hl] at h
    simp only [] at h
    have hdict : dictSet l t { ti with pastes := ti.pastes ++ [p] } =
        l.map (fun q => if q.1 = t
          then (t, { ti with pastes := ti.pastes ++ [p] }) else q) := by
      unfold dictSet
      rw [if_pos (by rw [hl]; rfl)]
    rw [hdict] at h
    rcases List.mem_map.mp h with ⟨orig, horig, heq⟩
    by_cases hk : orig.1 = t
    · rw [if_pos hk] at heq
      exact Or.inr ⟨ti, rfl, heq.symm⟩
    · rw [if_neg hk] at heq
      subst heq
      exact Or.inl horig

/-- Provenance and layout facts for a paste recorded by the compositor:
its image is the RGB conversion of a successfully loaded source, its
cell indices come from some rank's placement, and its pixel offsets are
exactly the code's formulas. -/
def PasteFrom (g : GridParams) (R : ℕ) (load : ℤ → Option SrcImage) (q : Paste) :
    Prop :=
  (∃ si, load q.srcTile = some si ∧ q.img = pilToRGB si)
  ∧ (∃ idx : ℕ, q.cellCol = (placementOfRank g idx).cellCol
      ∧ q.cellRow = (placementOfRank g idx).cellRow)
  ∧ q.px = pyInt ((q.cellCol : ℚ) * g.cellSize * (R : ℚ))
  ∧ q.py = pyInt ((1 - (q.cellRow : ℚ) * g.cellSize - g.cellSize) * (R : ℚ))
  ∧ q.sizePx = pyInt (g.cellSize * (R : ℚ))

/-- The invariant carried over the compositor's paste fold. -/
def goodTile (g : GridParams) (R : ℕ) (load : ℤ → Option SrcImage)
    (pr : ℤ × TargetImage) : Prop :=
  pr.2.mode = PMode.rgb ∧ pr.2.fill = (128, 128, 128) ∧ pr.2.res = R
  ∧ ∀ q ∈ pr.2.pastes, PasteFrom g R load q

lemma loadedFold_eq_nil (load : ℤ → Option SrcImage) :
    ∀ (tiles : List ℤ) (acc : List (ℤ × PILImage)), (∀ t ∈ tiles, load t = none) →
      tiles.foldl
        (fun acc t =>
          match load t with
          | some si => acc ++ [(t, pilToRGB si)]
          | none => acc) acc = acc := by
  intro tiles
  induction tiles with
  | nil =>
      intro acc _
      rfl
  | cons t ts ih =>
      intro acc h
      simp only [List.foldl, h t (List.mem_cons_self t ts)]
      exact ih acc (fun u hu => h u (List.mem_cons_of_mem t hu))

lemma loadedFold_ne_nil (load : ℤ → Option SrcImage) :
    ∀ (tiles : List ℤ) (acc : List (ℤ × PILImage)), acc ≠ [] →
      tiles.foldl
        (fun acc t =>
          match load t with
          | some si => acc ++ [(t, pilToRGB si)]
          | none => acc) acc ≠ [] := by
  intro tiles
  induction tiles with
  | nil =>
      intro acc h
      exact h
  | cons t ts ih =>
      intro acc h
      simp only [List.foldl]
      rcases hl : load t with _ | si
      · exact ih acc h
      · exact ih (acc ++ [(t, pilToRGB si)]) (by simp)

lemma loadedFold_ne_nil_of_some (load : ℤ → Option SrcImage) :
    ∀ (tiles : List ℤ) (acc : List (ℤ × PILImage)) (t : ℤ), t ∈ tiles →
      (load t).isSome →
      tiles.foldl
        (fun acc t =>
          match load t with
          | some si => acc ++ [(t, pilToRGB si)]
          | none => acc) acc ≠ [] := by
  intro tiles
  induction tiles with
  | nil =>
      intro acc t ht
      simp at ht
  | cons u ts ih =>
      intro acc t ht hsome
      rcases List.mem_cons.mp ht with h | h
      · subst h
        rcases hl : load t with _ | si
        · rw [hl] at hsome
          simp at hsome
        · simp only [List.foldl, hl]
          exact loadedFold_ne_nil load ts (acc ++ [(t, pilToRGB si)]) (by simp)
      · simp only [List.foldl]
        rcases hl : load u with _ | si
        · exact ih acc t h hsome
        · exact ih (acc ++ [(u, pilToRGB si)]) t h hsome

lemma loadedFold_mem (load : ℤ → Option SrcImage) :
    ∀ (tiles : List ℤ) (acc : List (ℤ × PILImage)) (pr : ℤ × PILImage),
      pr ∈ tiles.foldl
        (fun acc t =>
          match load t with
          | some si => acc ++ [(t, pilToRGB si)]
          | none => acc) acc →
      pr ∈ acc ∨ ∃ si, load pr.1 = some si ∧ pr.2 = pilToRGB si := by
  intro tiles
  induction tiles with
  | nil =>
      intro acc pr h
      exact Or.inl h
  | cons t ts ih =>
      intro acc pr h
      simp only [List.foldl] at h
      rcases hl : load t with _ | si
      · rw [hl] at h
        exact ih acc pr h
      · rw [hl] at h
        rcases ih _ pr h with h' | h'
        · rcases List.mem_append.mp h' with h'' | h''
          · exact Or.inl h''
          · simp at h''
            subst h''
            exact Or.inr ⟨si, by simp [hl], rfl⟩
        · exact Or.inr h'

/-- Master structural lemma about the compositor's result: every
persisted target tile is an RGB buffer with mid-gray fill at resolution
R, and every paste on it satisfies `PasteFrom`. -/
lemma composite_mem_spec (objects : List SObj) (R : ℕ) (tiles : List ℤ)
    (load : ℤ → Option SrcImage) (l : List (ℤ × TargetImage))
    (h : composite_textures_with_pil objects R tiles load = some l) :
    ∀ pr ∈ l,
      goodTile (gridLayout tiles.length (detectTargetTiles objects).length) R load pr := by
  unfold composite_textures_with_pil at h
  simp only at h
  by_cases hl : tiles.foldl
      (fun acc t =>
        match load t with
        | some si => acc ++ [(t, pilToRGB si)]
        | none => acc) [] = []
  · rw [if_pos hl] at h
    simp at h
  · rw [if_neg hl] at h
    have hbase : ∀ pr ∈ (detectTargetTiles objects).map
        (fun t => (t, blankTarget R)),
        goodTile (gridLayout tiles.length (detectTargetTiles objects).length) R load pr := by
      intro pr hpr
      rcases List.mem_map.mp hpr with ⟨t, _, rfl⟩
      refine ⟨rfl, rfl, rfl, ?_⟩
      intro q hq
      simp [blankTarget] at hq
    have hres := Option.some.inj h
    rw [← hres]
    apply foldl_preserve_prop _ _ ?_ tiles.enum _ hbase
    intro acc ip hacc pr hpr
    rcases hlk : (tiles.foldl
        (fun acc t =>
          match load t with
          | some si => acc ++ [(t, pilToRGB si)]
          | none => acc) []).lookup ip.2 with _ | pimg
    · rw [hlk] at hpr
      exact hacc pr hpr
    · rw [hlk] at hpr
      rcases mem_pasteInto hpr with h' | ⟨ti, hti, rfl⟩
      · exact hacc pr h'
      · have hgood := hacc _ (mem_of_lookup_eq_some hti)
        refine ⟨hgood.1, hgood.2.1, hgood.2.2.1, ?_⟩
        intro q hq
        rcases List.mem_append.mp hq with hq' | hq'
        · exact hgood.2.2.2 q hq'
        · simp at hq'
          subst hq'
          have hmem := mem_of_lookup_eq_some hlk
          rcases loadedFold_mem load tiles [] _ hmem with habs | ⟨si, hsi, hpi⟩
          · simp at habs
          · refine ⟨⟨si, hsi, hpi ▸ rfl⟩, ⟨ip.1, rfl, rfl⟩, rfl, rfl, rfl⟩

/-- C7: every paste recorded by the compositor uses the axis-flipped
vertical pixel offset `floor((1 − cellRow*cellSize − cellSize) * R)`
(texture space is bottom-origin, the pixel buffer top-origin) and the
horizontal offset `floor(cellCol*cellSize*R)`; the vertical offset is
never negative, and a bottom-row cell (`cellRow = 0`) ends exactly at
the bottom of the buffer (`py + cellSizePx = R`) whenever `gridCols`
divides `R`. -/
theorem C7_vertical_axis_flip (objects : List SObj) (R : ℕ)
    (sourceTiles : List ℤ) (loadOutcome : ℤ → Option SrcImage)
    (l : List (ℤ × TargetImage))
    (hsome : composite_textures_with_pil objects R sourceTiles loadOutcome = some l)
    (hS : sourceTiles ≠ []) (hT : detectTargetTiles objects ≠ [])
    (tile : ℤ) (ti : TargetImage) (hmem : (tile, ti) ∈ l)
    (p : Paste) (hp : p ∈ ti.pastes) :
    let g := gridLayout sourceTiles.length (detectTargetTiles objects).length
    p.px = ⌊(p.cellCol : ℚ) * g.cellSize * (R : ℚ)⌋
    ∧ p.py = ⌊(1 - (p.cellRow : ℚ) * g.cellSize - g.cellSize) * (R : ℚ)⌋
    ∧ 0 ≤ p.py
    ∧ (p.cellRow = 0 → g.gridCols ∣ R → p.py + p.sizePx = (R : ℤ)) := by
  intro g
  have hgood := composite_mem_spec objects R sourceTiles loadOutcome l hsome
    (tile, ti) hmem
  obtain ⟨-, ⟨idx, hcol, hrow⟩, hpx, hpy, hsz⟩ := hgood.2.2.2 p hp
  have hS1 : 1 ≤ sourceTiles.length := List.length_pos.mpr hS
  have hT1 : 1 ≤ (detectTargetTiles objects).length := List.length_pos.mpr hT
  have htpt : 0 < g.tilesPerTarget := gridLayout_tpt_pos hS1 hT1
  have hgc : 0 < g.gridCols := gridLayout_gc_pos hS1 hT1
  have hgcq : (0 : ℚ) < (g.gridCols : ℚ) := by exact_mod_cast hgc
  have hcs : g.cellSize = 1 / (g.gridCols : ℚ) := rfl
  have hrow_lt : p.cellRow < g.gridCols := by
    rw [hrow]
    have h1 : idx % g.tilesPerTarget < g.tilesPerTarget := Nat.mod_lt idx htpt
    have h2 : g.tilesPerTarget ≤ g.gridCols * g.gridCols :=
      (ceilSqrt_spec (ceilDiv sourceTiles.length (detectTargetTiles objects).length)).1
    exact (Nat.div_lt_iff_lt_mul hgc).mpr (lt_of_lt_of_le h1 h2)
  have hcs_nonneg : 0 ≤ g.cellSize := by
    rw [hcs]
    positivity
  have hpy_nonneg : 0 ≤ (1 - (p.cellRow : ℚ) * g.cellSize - g.cellSize) * (R : ℚ) := by
    apply mul_nonneg _ (by positivity)
    rw [hcs]
    have hle : (p.cellRow : ℚ) + 1 ≤ (g.gridCols : ℚ) := by exact_mod_cast hrow_lt
    have h9 : ((p.cellRow : ℚ) + 1) * (1 / (g.gridCols : ℚ)) ≤ 1 := by
      rw [mul_one_div, div_le_one hgcq]
      exact hle
    rw [add_mul, one_mul] at h9
    linarith
  have hpx_nonneg : 0 ≤ (p.cellCol : ℚ) * g.cellSize * (R : ℚ) := by
    apply mul_nonneg (mul_nonneg (by positivity) hcs_nonneg) (by positivity)
  refine ⟨by rw [hpx, pyInt_eq_floor hpx_nonneg],
          by rw [hpy, pyInt_eq_floor hpy_nonneg],
          by rw [hpy, pyInt_eq_floor hpy_nonneg]; exact Int.floor_nonneg.mpr hpy_nonneg,
          ?_⟩
  intro hrow0 hdvd
  obtain ⟨m, hm⟩ := hdvd
  have hRq : (R : ℚ) = (g.gridCols : ℚ) * (m : ℚ) := by exact_mod_cast hm
  have hgcne : (g.gridCols : ℚ) ≠ 0 := ne_of_gt hgcq
  have hval_py : (1 - (p.cellRow : ℚ) * g.cellSize - g.cellSize) * (R : ℚ)
      = (g.gridCols : ℚ) * (m : ℚ) - (m : ℚ) := by
    rw [hrow0, hcs, hRq]
    push_cast
    field_simp
    ring
  have hval_sz : g.cellSize * (R : ℚ) = (m : ℚ) := by
    rw [hcs, hRq]
    field_simp
  have hsub : (g.gridCols : ℚ) * (m : ℚ) - (m : ℚ) = (((g.gridCols - 1) * m : ℕ) : ℚ) := by
    have h1 : (g.gridCols - 1 : ℕ) + 1 = g.gridCols := Nat.succ_pred_eq_of_pos hgc
    push_cast [Nat.cast_sub hgc]
    ring
  have hpyv : p.py = ((g.gridCols - 1) * m : ℕ) := by
    rw [hpy, hval_py, hsub, pyInt_natCast]
  have hszv : p.sizePx = (m : ℤ) := by
    rw [hsz, hval_sz, pyInt_natCast]
  rw [hpyv, hszv]
  have hfin : (g.gridCols - 1) * m + m = R := by
    have h1 : (g.gridCols - 1) + 1 = g.gridCols := Nat.succ_pred_eq_of_pos hgc
    calc (g.gridCols - 1) * m + m = ((g.gridCols - 1) + 1) * m := by ring
      _ = g.gridCols * m := by rw [h1]
      _ = R := hm.symm
  exact_mod_cast congrArg (fun n : ℕ => (n : ℤ)) hfin

/-- Witness for C7 at the concrete scene of C1: the paste of source
tile 1001 sits at pixel (0, 0) with size 8 in an 8×8 buffer. -/
theorem C7_vertical_axis_flip_witness :
    let g := gridLayout ([1001, 1002, 1003] : List ℤ).length
        (detectTargetTiles [c1Obj0, c1Obj1, c1Obj2]).length
    (0 : ℤ) = ⌊((0 : ℕ) : ℚ) * g.cellSize * ((8 : ℕ) : ℚ)⌋
    ∧ (0 : ℤ) = ⌊(1 - ((0 : ℕ) : ℚ) * g.cellSize - g.cellSize) * ((8 : ℕ) : ℚ)⌋
    ∧ (0 : ℤ) ≤ (0 : ℤ)
    ∧ ((0 : ℕ) = 0 → g.gridCols ∣ 8 → (0 : ℤ) + (8 : ℤ) = ((8 : ℕ) : ℤ)) := by
  exact C7_vertical_axis_flip [c1Obj0, c1Obj1, c1Obj2] 8 [1001, 1002, 1003] c1Load
    _ composite_c1 (by simp) (by rw [target_detect_c1]; simp)
    1001 ⟨PMode.rgb, (128, 128, 128), 8, [⟨1001, pilA, 8, 0, 0, 0, 0⟩]⟩
    (by simp)
    ⟨1001, pilA, 8, 0, 0, 0, 0⟩ (by simp)

/-- C8: with automatic sizing, once the scan discovers a source image
(max dimension `m`), the output resolution is `m * gridCols` rounded up
to the next power of two (the least `2^k` at or above it) and clamped
into [512, 8192], with `gridCols` derived from the surveyed tile count
and the requested target count. -/
theorem C8_lossless_resolution (objects : List SObj) (T : ℕ)
    (m : ℕ) (hm : discoverSourceResolution objects = some m) :
    let s0 := (losslessSourceTiles objects).length
    let S := if s0 = 0 then 1 else s0
    let gc := (gridLayout S T).gridCols
    calculate_lossless_resolution objects T = max 512 (min 8192 (2 ^ ceilLog2 (m * gc)))
    ∧ m * gc ≤ 2 ^ ceilLog2 (m * gc)
    ∧ (∀ j, m * gc ≤ 2 ^ j → ceilLog2 (m * gc) ≤ j) := by
  intro s0 S gc
  refine ⟨?_, (ceilLog2_spec (m * gc)).1, (ceilLog2_spec (m * gc)).2⟩
  unfold calculate_lossless_resolution
  rw [hm]

def img2048 : Image := ⟨"big.png", 2048, 2048⟩

def mat2048 : Material := ⟨true, [⟨"TEX_IMAGE", some img2048, []⟩]⟩

/-- One mesh spanning four source tiles with a 2048×2048 texture. -/
def c8Obj : SObj :=
  { objType := "MESH", hasUVLayers := true, hasActiveUV := true,
    loops := [(1/2, 1/2), (3/2, 1/2), (1/2, 3/2), (3/2, 3/2)],
    materials := [some mat2048] }

/-- Witness for C8: source dimension 2048 with 4 source tiles packed
into 1 target (gridCols = 2) yields 4096. -/
theorem C8_lossless_resolution_witness :
    calculate_lossless_resolution [c8Obj] 1 = 4096 := by
  have hdisc : discoverSourceResolution [c8Obj] = some 2048 := by
    simp [discoverSourceResolution, c8Obj, get_object_texture_resolution, mat2048,
      img2048, List.findSome?]
  have htiles : losslessSourceTiles [c8Obj] = [1001, 1002, 1011, 1012] := by
    unfold losslessSourceTiles
    simp only [List.foldl, c8Obj, tileNumTrunc, tct_half, tct_3half]
    norm_num [addTile]
  have h := (C8_lossless_resolution [c8Obj] 1 2048 hdisc).1
  rw [htiles] at h
  simp only [List.length_cons, List.length_nil] at h
  norm_num at h
  have hgc : (gridLayout 4 1).gridCols = 2 := by decide
  rw [hgc] at h
  have hcl : ceilLog2 (2048 * 2) = 12 := by decide
  rw [hcl] at h
  norm_num at h
  exact h

/-! ## C9: per-channel abort and fallback -/

lemma bakeAll_lookup (channels : List String) (f : String → BakeInput) :
    ∀ c ∈ channels,
      (bakeAllChannels channels f).lookup c = some (bake_combined_texture (f c)) := by
  induction channels with
  | nil =>
      intro c hc
      simp at hc
  | cons c0 cs ih =>
      intro c hc
      unfold bakeAllChannels
      by_cases hch : c = c0
      · subst hch
        simp [List.lookup]
      · rcases List.mem_cons.mp hc with h | h
        · exact absurd h hch
        · simp only [List.map, List.lookup, beq_false_of_ne hch]
          exact ih c h

/-- C9: if no source image loads for a channel, that channel's
compositing returns the no-result signal and the caller falls back to
the Blender bake path; if at least one loads, compositing returns a
result in which every persisted tile keeps the opaque mid-gray fill and
only successfully loaded source tiles are ever pasted; and each channel
of the per-socket loop is baked independently from its own inputs. -/
theorem C9_zero_loaded_aborts_channel (inp : BakeInput) :
    ((∀ t ∈ inp.sourceTiles, inp.loadOutcome t = none) →
      composite_textures_with_pil inp.objects inp.resolution inp.sourceTiles
          inp.loadOutcome = none
      ∧ bake_combined_texture inp = BakeOutcome.blenderBake)
    ∧ ((∃ t ∈ inp.sourceTiles, (inp.loadOutcome t).isSome) →
        ∃ l, composite_textures_with_pil inp.objects inp.resolution inp.sourceTiles
            inp.loadOutcome = some l
          ∧ ∀ pr ∈ l, pr.2.fill = (128, 128, 128)
            ∧ ∀ q ∈ pr.2.pastes, (inp.loadOutcome q.srcTile).isSome)
    ∧ (∀ (channels : List String) (f : String → BakeInput), ∀ c ∈ channels,
        (bakeAllChannels channels f).lookup c = some (bake_combined_texture (f c))) := by
  refine ⟨?_, ?_, fun channels f => bakeAll_lookup channels f⟩
  · intro hnone
    have hcomp : composite_textures_with_pil inp.objects inp.resolution inp.sourceTiles
        inp.loadOutcome = none := by
      unfold composite_textures_with_pil
      simp only
      rw [if_pos (loadedFold_eq_nil inp.loadOutcome inp.sourceTiles [] hnone)]
    refine ⟨hcomp, ?_⟩
    unfold bake_combined_texture
    by_cases htt : inp.tileToTexture = []
    · rw [if_pos htt]
    · rw [if_neg htt, hcomp]
  · intro ⟨t, ht, hsome⟩
    have hne : inp.sourceTiles.foldl
        (fun acc t =>
          match inp.loadOutcome t with
          | some si => acc ++ [(t, pilToRGB si)]
          | none => acc) [] ≠ [] :=
      loadedFold_ne_nil_of_some inp.loadOutcome inp.sourceTiles [] t ht hsome
    have hcomp : ∃ l, composite_textures_with_pil inp.objects inp.resolution
        inp.sourceTiles inp.loadOutcome = some l := by
      unfold composite_textures_with_pil
      simp only
      rw [if_neg hne]
      exact ⟨_, rfl⟩
    obtain ⟨l, hl⟩ := hcomp
    refine ⟨l, hl, ?_⟩
    intro pr hpr
    have hgood := composite_mem_spec inp.objects inp.resolution inp.sourceTiles
      inp.loadOutcome l hl pr hpr
    refine ⟨hgood.2.1, ?_⟩
    intro q hq
    obtain ⟨⟨si, hsi, -⟩, -⟩ := hgood.2.2.2 q hq
    rw [hsi]
    rfl

def c9NoLoad : BakeInput :=
  { objects := [c1Obj0], resolution := 8, sourceTiles := [1001],
    tileToTexture := [(1001, imgA)], loadOutcome := fun _ => none }

/-- Witness for C9: with a mapped texture that fails to load, the
compositor returns the no-result signal and the channel falls back to
Blender baking; channel results come from their own inputs. -/
theorem C9_zero_loaded_aborts_channel_witness :
    (composite_textures_with_pil c9NoLoad.objects c9NoLoad.resolution
        c9NoLoad.sourceTiles c9NoLoad.loadOutcome = none
      ∧ bake_combined_texture c9NoLoad = BakeOutcome.blenderBake)
    ∧ (bakeAllChannels ["Base Color"] (fun _ => c9NoLoad)).lookup "Base Color"
        = some (bake_combined_texture c9NoLoad) := by
  have h := C9_zero_loaded_aborts_channel c9NoLoad
  refine ⟨h.1 ?_, ?_⟩
  · intro t ht
    rfl
  · exact h.2.2 ["Base Color"] (fun _ => c9NoLoad) "Base Color" (by simp)

/-! ## C10: persisted composites are RGB with no alpha -/

lemma pilToRGB_facts (si : SrcImage) :
    (pilToRGB si).mode = PMode.rgb ∧ (pilToRGB si).origin = si
    ∧ ((pilToRGB si).flattenedOverWhite = true ↔ si.mode = PMode.rgba) := by
  unfold pilToRGB
  by_cases h : si.mode = PMode.rgba
  · rw [if_pos h]
    simp [h]
  · rw [if_neg h]
    by_cases h2 : si.mode = PMode.rgb
    · rw [if_neg (by simp [h2])]
      simp [h2]
    · rw [if_pos h2]
      simp [h]

/-- C10: every target-tile buffer the compositor produces is an RGB
buffer (no alpha) with the opaque mid-gray (128, 128, 128) fill in
regions no paste covers; every pasted image is in RGB mode, was
flattened over opaque white exactly when its source carried an alpha
channel (RGBA), and was left unflattened otherwise — so transparency is
discarded, never propagated. -/
theorem C10_composites_are_rgb (objects : List SObj) (R : ℕ)
    (sourceTiles : List ℤ) (loadOutcome : ℤ → Option SrcImage)
    (l : List (ℤ × TargetImage))
    (h : composite_textures_with_pil objects R sourceTiles loadOutcome = some l) :
    ∀ pr ∈ l, pr.2.mode = PMode.rgb ∧ pr.2.fill = (128, 128, 128)
      ∧ ∀ q ∈ pr.2.pastes, q.img.mode = PMode.rgb
        ∧ (q.img.origin.mode = PMode.rgba → q.img.flattenedOverWhite = true)
        ∧ (q.img.origin.mode ≠ PMode.rgba → q.img.flattenedOverWhite = false) := by
  intro pr hpr
  have hgood := composite_mem_spec objects R sourceTiles loadOutcome l h pr hpr
  refine ⟨hgood.1, hgood.2.1, ?_⟩
  intro q hq
  obtain ⟨⟨si, -, hqi⟩, -⟩ := hgood.2.2.2 q hq
  have hf := pilToRGB_facts si
  rw [hqi]
  refine ⟨hf.1, ?_, ?_⟩
  · intro hmode
    rw [hf.2.1] at hmode
    exact hf.2.2.mpr hmode
  · intro hmode
    rw [hf.2.1] at hmode
    rcases hb : (pilToRGB si).flattenedOverWhite with _ | _
    · rfl
    · exact absurd (hf.2.2.mp hb) hmode

/-- Witness for C10 at the concrete compositing run of C1. -/
theorem C10_composites_are_rgb_witness :
    PMode.rgb = PMode.rgb ∧ ((128, 128, 128) : ℕ × ℕ × ℕ) = (128, 128, 128)
    ∧ ∀ q ∈ [(⟨1001, pilA, 8, 0, 0, 0, 0⟩ : Paste)], q.img.mode = PMode.rgb
        ∧ (q.img.origin.mode = PMode.rgba → q.img.flattenedOverWhite = true)
        ∧ (q.img.origin.mode ≠ PMode.rgba → q.img.flattenedOverWhite = false) := by
  exact C10_composites_are_rgb [c1Obj0, c1Obj1, c1Obj2] 8 [1001, 1002, 1003] c1Load
    _ composite_c1
    (1001, ⟨PMode.rgb, (128, 128, 128), 8, [⟨1001, pilA, 8, 0, 0, 0, 0⟩]⟩)
    (by simp)

end BBTex
